import Mathlib

/-!
# TinyBrite: packet encoding and chain-state tracking of the A6281 driver

A shallow embedding of `src/TinyA6281.cpp` and `src/includes/TinyA6281.h`, and
of the packet builders of `src/TinyBrite.cpp` and `src/TinyBrite.h`.

* `A6281Packet` is the 32-bit packet union.  Its `value` member is a natural
  number below `2 ^ 32`; the two anonymous bit-field structs are views over
  `value`.  Bit-fields are allocated in declaration order starting at bit 0
  (the layout of the AVR/Arduino toolchain the library targets), which gives
  the offsets listed with each field below.
* `TinyA6281` is the controller object.  Its fields are the private members
  of the C++ class, plus `mcu`, the sequence of calls made to the `MCU`
  platform class (oldest first).
* `DriverNum` is `uint8_t` (`TA6281_STATE_TRACKING_BIGNUM` is not defined in
  `TinyBriteConfig.h`), so counters of that type are reduced modulo `2 ^ 8`.
-/

/-! ## Packets -/

/-- The `A6281Packet` union, represented by its `unsigned long value` member. -/
structure A6281Packet where
  value : Nat
deriving DecidableEq, Repr

/-- Mode value `TA6281_MODE_PWM`. -/
def TA6281_MODE_PWM : Nat := 0

/-- Mode value `TA6281_MODE_CORRECT`. -/
def TA6281_MODE_CORRECT : Nat := 1

namespace A6281Packet

/-- Read a bit-field of `width` bits that starts at bit `off`. -/
def getField (off width : Nat) (p : A6281Packet) : Nat :=
  (p.value / 2 ^ off) % 2 ^ width

/-- Assign `x` to a bit-field of `width` bits that starts at bit `off`: the
value is truncated to `width` bits and replaces the old contents of the
field, every other bit of the word is kept. -/
def setField (off width : Nat) (p : A6281Packet) (x : Nat) : A6281Packet :=
  ⟨p.value - getField off width p * 2 ^ off + (x % 2 ^ width) * 2 ^ off⟩

/-- Bit `k` of the raw value. -/
def bit (p : A6281Packet) (k : Nat) : Nat := (p.value / 2 ^ k) % 2

/-- Field `unsigned pwm_0 :10` (bits 0..9). -/
def pwm_0 (p : A6281Packet) : Nat := getField 0 10 p
/-- Field `unsigned pwm_1 :10` (bits 10..19). -/
def pwm_1 (p : A6281Packet) : Nat := getField 10 10 p
/-- Field `unsigned pwm_2 :10` (bits 20..29). -/
def pwm_2 (p : A6281Packet) : Nat := getField 20 10 p
/-- Field `unsigned mode_pwm :1` (bit 30). -/
def mode_pwm (p : A6281Packet) : Nat := getField 30 1 p

/-- Field `unsigned dotCorrect0 :7` (bits 0..6). -/
def dotCorrect0 (p : A6281Packet) : Nat := getField 0 7 p
/-- Field `unsigned clockMode :2` (bits 7..8); bit 9 is an unnamed pad. -/
def clockMode (p : A6281Packet) : Nat := getField 7 2 p
/-- Field `unsigned dotCorrect1 :7` (bits 10..16); bits 17..19 are pad. -/
def dotCorrect1 (p : A6281Packet) : Nat := getField 10 7 p
/-- Field `unsigned dotCorrect2 :7` (bits 20..26); bit 27 is pad. -/
def dotCorrect2 (p : A6281Packet) : Nat := getField 20 7 p
/-- Field `unsigned atb0 :1` (bit 28). -/
def atb0 (p : A6281Packet) : Nat := getField 28 1 p
/-- Field `unsigned atb1 :1` (bit 29). -/
def atb1 (p : A6281Packet) : Nat := getField 29 1 p
/-- Field `unsigned mode_correct :1` (bit 30). -/
def mode_correct (p : A6281Packet) : Nat := getField 30 1 p

end A6281Packet

/-- Macro `TA6281_SETPWMPACKET(packet, pwm0, pwm1, pwm2)`. -/
def TA6281_SETPWMPACKET (packet : A6281Packet) (pwm0 pwm1 pwm2 : Nat) : A6281Packet :=
  let packet := A6281Packet.setField 0 10 packet pwm0
  let packet := A6281Packet.setField 10 10 packet pwm1
  let packet := A6281Packet.setField 20 10 packet pwm2
  A6281Packet.setField 30 1 packet TA6281_MODE_PWM

/-- Macro `TA6281_SETCOMMANDPACKET(packet, correct0, correct1, correct2, clockMode)`. -/
def TA6281_SETCOMMANDPACKET (packet : A6281Packet) (correct0 correct1 correct2 clockMode : Nat) :
    A6281Packet :=
  let packet := A6281Packet.setField 0 7 packet correct0
  let packet := A6281Packet.setField 10 7 packet correct1
  let packet := A6281Packet.setField 20 7 packet correct2
  let packet := A6281Packet.setField 7 2 packet clockMode
  A6281Packet.setField 30 1 packet TA6281_MODE_CORRECT

/-! ## The platform class `MCU` -/

/-- A call to one of the static methods of the platform class `MCU`
(`TB_Platform_Arduino.h`). -/
inductive MCUCall where
  | setPinMode (pinId : Nat) (mode : Nat)
  | digitalOut (pinId : Nat) (value : Bool)
  | delayUs (us : Nat)
deriving DecidableEq, Repr

/-- Arduino level `HIGH`. -/
def HIGH : Bool := true
/-- Arduino level `LOW`. -/
def LOW : Bool := false
/-- Arduino pin mode `OUTPUT`. -/
def OUTPUT : Nat := 1

/-- Constant `TA6281_CLOCK_DELAY_US` of `TinyBriteConfig.h`. -/
def TA6281_CLOCK_DELAY_US : Nat := 20
/-- Constant `TA6281_LATCH_DELAY_US` of `TinyBriteConfig.h`. -/
def TA6281_LATCH_DELAY_US : Nat := 30
/-- Constant `TA6281_DEFAULT_DATAPIN`. -/
def TA6281_DEFAULT_DATAPIN : Nat := 0
/-- Constant `TA6281_DEFAULT_NENABLEPIN`. -/
def TA6281_DEFAULT_NENABLEPIN : Nat := 1
/-- Constant `TA6281_DEFAULT_CLOCKPIN`. -/
def TA6281_DEFAULT_CLOCKPIN : Nat := 2
/-- Constant `TA6281_DEFAULT_LATCHPIN`. -/
def TA6281_DEFAULT_LATCHPIN : Nat := 3

/-! ## The index type `DriverNum` (`uint8_t`) -/

/-- Number of values of `DriverNum`. -/
def DriverNum.size : Nat := 256

/-- Statement `x++` on a `DriverNum`. -/
def DriverNum.incr (x : Nat) : Nat := (x + 1) % DriverNum.size

/-- Statement `x--` on a `DriverNum`, and the conversion of `x - 1` to
`DriverNum`: 0 wraps to 255. -/
def DriverNum.decr (x : Nat) : Nat := (x + (DriverNum.size - 1)) % DriverNum.size

/-! ## The controller -/

/-- The controller object: the private members of class `TinyA6281`, and in
`mcu` the calls made so far to the platform class `MCU`, oldest first.
`state_vector` is `none` for the `NULL` pointer. -/
structure TinyA6281 where
  using_nEnable : Bool
  pin_data : Nat
  pin_clock : Nat
  pin_latch : Nat
  pin_nEnable : Nat
  num_sent : Nat
  num_drivers : Nat
  auto_update_cycle : Bool
  tracking_state : Bool
  state_vector : Option (List A6281Packet)
  state_vector_head_idx : Nat
  mcu : List MCUCall
deriving DecidableEq, Repr

namespace TinyA6281

/-- One call into the platform class. -/
def call (t : TinyA6281) (c : MCUCall) : TinyA6281 :=
  { t with mcu := t.mcu ++ [c] }

/-- The constructor `TinyA6281::TinyA6281(numA6281s, autoUpdates)`. -/
def construct (numA6281s : Nat) (autoUpdates : Bool) : TinyA6281 where
  using_nEnable := false
  pin_data := TA6281_DEFAULT_DATAPIN
  pin_clock := TA6281_DEFAULT_CLOCKPIN
  pin_latch := TA6281_DEFAULT_LATCHPIN
  pin_nEnable := TA6281_DEFAULT_NENABLEPIN
  num_sent := 0
  num_drivers := numA6281s
  auto_update_cycle := autoUpdates
  tracking_state := false
  state_vector := none
  state_vector_head_idx := 0
  mcu := []

/-- Method `autoUpdate`. -/
def autoUpdate (t : TinyA6281) : Bool := t.auto_update_cycle

/-- Method `setAutoUpdate`. -/
def setAutoUpdate (t : TinyA6281) (setTo : Bool) : TinyA6281 :=
  { t with auto_update_cycle := setTo }

/-- Method `stateTracking`. -/
def stateTracking (t : TinyA6281) : Bool := t.tracking_state

/-- Method `setEnabled`. -/
def setEnabled (t : TinyA6281) (activate : Bool) : TinyA6281 :=
  if t.using_nEnable then
    if activate then t.call (.digitalOut t.pin_nEnable LOW)
    else t.call (.digitalOut t.pin_nEnable HIGH)
  else t

/-- Method `setPins`. -/
def setPins (t : TinyA6281) (datapin clockpin latchpin nEnablepin : Nat) : TinyA6281 :=
  let t := { t with pin_data := datapin, pin_clock := clockpin, pin_latch := latchpin,
                    pin_nEnable := nEnablepin }
  let t := t.call (.setPinMode t.pin_clock OUTPUT)
  let t := t.call (.setPinMode t.pin_latch OUTPUT)
  let t := t.call (.setPinMode t.pin_data OUTPUT)
  if t.using_nEnable then t.call (.setPinMode t.pin_nEnable OUTPUT) else t

/-- Method `setup(datapin, clockpin, latchpin)`, without a not-enable pin. -/
def setup3 (t : TinyA6281) (datapin clockpin latchpin : Nat) : TinyA6281 :=
  let t := { t with using_nEnable := false }
  let t := t.setPins datapin clockpin latchpin TA6281_DEFAULT_NENABLEPIN
  let t := t.call (.digitalOut t.pin_clock LOW)
  t.call (.digitalOut t.pin_latch LOW)

/-- Method `setup(datapin, clockpin, latchpin, nEnablepin)`. -/
def setup4 (t : TinyA6281) (datapin clockpin latchpin nEnablepin : Nat) : TinyA6281 :=
  let t := { t with using_nEnable := true }
  let t := t.setPins datapin clockpin latchpin nEnablepin
  let t := t.call (.digitalOut t.pin_clock LOW)
  let t := t.call (.digitalOut t.pin_latch LOW)
  t.call (.digitalOut t.pin_nEnable LOW)

/-- Method `beginUpdate`. -/
def beginUpdate (t : TinyA6281) : TinyA6281 :=
  { t with num_sent := 0 }

/-- Method `latch`. -/
def latch (t : TinyA6281) : TinyA6281 :=
  let t := t.call (.digitalOut t.pin_latch HIGH)
  let t := t.call (.delayUs TA6281_LATCH_DELAY_US)
  t.call (.digitalOut t.pin_latch LOW)

/-- Method `endUpdate`: the returned count and the object afterwards. -/
def endUpdate (t : TinyA6281) : Nat × TinyA6281 :=
  let t := if t.num_sent != 0 then t.latch else t
  (t.num_sent, t)

/-- Static method `pwmPacket`.  The arguments are `unsigned int`; any width
of that type is at least the 10 bits a field keeps. -/
def pwmPacket (pwm0 pwm1 pwm2 : Nat) : A6281Packet :=
  let packet : A6281Packet := ⟨0⟩
  TA6281_SETPWMPACKET packet pwm0 pwm1 pwm2

/-- Static method `commandPacket`. -/
def commandPacket (correct0 correct1 correct2 clockMode : Nat) : A6281Packet :=
  let packet : A6281Packet := ⟨0⟩
  TA6281_SETCOMMANDPACKET packet correct0 correct1 correct2 clockMode

/-- Body of the bit loop of `sendPacket` for counter value `i`: drive the
data pin with bit `32 - i` of the packet, then toggle the clock. -/
def sendPacketBit (packet : A6281Packet) (i : Nat) (t : TinyA6281) : TinyA6281 :=
  let t := if (packet.value >>> (32 - i)) &&& 1 != 0 then t.call (.digitalOut t.pin_data HIGH)
           else t.call (.digitalOut t.pin_data LOW)
  let t := t.call (.digitalOut t.pin_clock HIGH)
  let t := t.call (.delayUs TA6281_CLOCK_DELAY_US)
  let t := t.call (.digitalOut t.pin_clock LOW)
  t.call (.delayUs TA6281_CLOCK_DELAY_US)

/-- The loop `for (uint8_t i = 1; i < 33; i++)`, with `k` iterations left to
run from counter value `i` (it is entered with `k = 32`, `i = 1`). -/
def sendPacketBits (packet : A6281Packet) : Nat → Nat → TinyA6281 → TinyA6281
  | 0, _, t => t
  | k + 1, i, t => sendPacketBits packet k (i + 1) (sendPacketBit packet i t)

/-- The loop `for (uint8_t n = 0; n < num_times; n++)` of `sendPacket`, with
`k` iterations left: all 32 bits, then `num_sent++`. -/
def sendPacketTimes (packet : A6281Packet) : Nat → TinyA6281 → TinyA6281
  | 0, t => t
  | k + 1, t =>
    let t := sendPacketBits packet 32 1 t
    let t := { t with num_sent := DriverNum.incr t.num_sent }
    sendPacketTimes packet k t

/-- The state-tracking block of `sendPacket`: when tracking is on and the
state vector is allocated, step the head index back (from 0 round to
`num_drivers - 1`) and store the packet there. -/
def sendPacketTrack (packet : A6281Packet) (t : TinyA6281) : TinyA6281 :=
  match t.state_vector with
  | some sv =>
    if t.tracking_state then
      let head := if t.state_vector_head_idx != 0 then t.state_vector_head_idx - 1
                  else DriverNum.decr t.num_drivers
      { t with state_vector_head_idx := head, state_vector := some (sv.set head packet) }
    else t
  | none => t

/-- Method `sendPacket(packet, num_times)`; `num_times` is a `uint8_t`. -/
def sendPacket (t : TinyA6281) (packet : A6281Packet) (num_times : Nat) : TinyA6281 :=
  let t := if t.auto_update_cycle then t.beginUpdate else t
  let t := sendPacketTimes packet num_times t
  let t := sendPacketTrack packet t
  if t.auto_update_cycle then t.endUpdate.2 else t

/-- The loop of `sendPackets`, with `k` iterations left and `curPacket`
pointing at element `i` of the caller's array `packets`. -/
def sendPacketsLoop (packets : Nat → A6281Packet) : Nat → Nat → TinyA6281 → TinyA6281
  | 0, _, t => t
  | k + 1, i, t => sendPacketsLoop packets k (i + 1) (t.sendPacket (packets i) 1)

/-- Method `sendPackets(packets, numPackets)`.  The pointer argument is the
memory it addresses, element by element. -/
def sendPackets (t : TinyA6281) (packets : Nat → A6281Packet) (numPackets : Nat) : TinyA6281 :=
  let tmpUpdate := t.auto_update_cycle
  let t := if t.auto_update_cycle then
             ({ t with auto_update_cycle := false } : TinyA6281).beginUpdate
           else t
  let t := sendPacketsLoop packets numPackets 0 t
  if tmpUpdate then
    let t := t.endUpdate.2
    { t with auto_update_cycle := true }
  else t

/-- Method `sendPacketToAll`. -/
def sendPacketToAll (t : TinyA6281) (packet : A6281Packet) : TinyA6281 :=
  t.sendPacket packet t.num_drivers

/-- Method `sendPWMValues`. -/
def sendPWMValues (t : TinyA6281) (pwm0 pwm1 pwm2 : Nat) : TinyA6281 :=
  let packet : A6281Packet := ⟨0⟩
  let packet := TA6281_SETPWMPACKET packet pwm0 pwm1 pwm2
  t.sendPacket packet 1

/-- Method `sendCommand`. -/
def sendCommand (t : TinyA6281) (correct0 correct1 correct2 clockMode : Nat) : TinyA6281 :=
  let packet : A6281Packet := ⟨0⟩
  let packet := TA6281_SETCOMMANDPACKET packet correct0 correct1 correct2 clockMode
  t.sendPacket packet 1

/-- Method `setStateTracking(setTo)`; `mallocOk` says whether `malloc`
returns a block.  Gives the returned flag and the object afterwards. -/
def setStateTracking (t : TinyA6281) (setTo : Bool) (mallocOk : Bool) : Bool × TinyA6281 :=
  let t := { t with tracking_state := setTo }
  if t.tracking_state && t.num_drivers != 0 && t.state_vector.isNone then
    if mallocOk then
      let t := { t with state_vector := some (List.replicate t.num_drivers ⟨0⟩),
                        state_vector_head_idx := t.num_drivers }
      (t.tracking_state, t)
    else
      let t := { t with tracking_state := false }
      (t.tracking_state, t)
  else (t.tracking_state, t)

/-- Method `getState(driver_index)`: `none` for `NULL`, otherwise the slot of
`state_vector` the returned pointer addresses. -/
def getState (t : TinyA6281) (driver_index : Nat) : Option Nat :=
  if driver_index >= t.num_drivers || t.state_vector.isNone then none
  else some driver_index

/-- The copy loop of `saveState`, with `k` iterations left and `cur_idx` the
slot of the ring buffer `sv` read next: the values stored into
`a_state_vector[i]`, `a_state_vector[i + 1]`, ... in that order. -/
def saveStateLoop (sv : List A6281Packet) (num_drivers : Nat) : Nat → Nat → List A6281Packet
  | 0, _ => []
  | k + 1, cur_idx =>
    let x := sv.getD cur_idx ⟨0⟩
    let cur_idx := DriverNum.incr cur_idx
    let cur_idx := if cur_idx >= num_drivers then 0 else cur_idx
    x :: saveStateLoop sv num_drivers k cur_idx

/-- Method `saveState(a_state_vector)`: the returned count, and the values
written to `a_state_vector[0]`, `a_state_vector[1]`, ... (nothing is written
when the list is empty). -/
def saveState (t : TinyA6281) : Nat × List A6281Packet :=
  match t.state_vector with
  | none => (0, [])
  | some sv =>
    if t.state_vector_head_idx >= t.num_drivers then (0, [])
    else (t.num_drivers, saveStateLoop sv t.num_drivers t.num_drivers t.state_vector_head_idx)

/-- Body of the loop of `restoreState` for counter value `i`: send
`a_state_vector[i]`. -/
def restoreStateBody (a_state_vector : Nat → A6281Packet) (i : Nat) (t : TinyA6281) :
    TinyA6281 :=
  t.sendPacket (a_state_vector i) 1

/-- The loop `for (DriverNum i = num_drivers - 1; i >= 0; i--)` of
`restoreState`, run for at most `fuel` iterations: `none` when the loop has
not been left by then.  The test `i >= 0` compares the promoted counter with
the `int` 0. -/
def restoreStateLoop (a_state_vector : Nat → A6281Packet) :
    Nat → Nat → TinyA6281 → Option TinyA6281
  | 0, _, _ => none
  | fuel + 1, i, t =>
    if (i : Int) >= 0 then
      restoreStateLoop a_state_vector fuel (DriverNum.decr i) (restoreStateBody a_state_vector i t)
    else some t

/-- Method `restoreState(a_state_vector)`, with at most `fuel` iterations of
its loop.  The pointer argument is the memory it addresses, element by
element. -/
def restoreState (fuel : Nat) (t : TinyA6281) (a_state_vector : Nat → A6281Packet) :
    Option TinyA6281 :=
  let tmpUpdate := t.auto_update_cycle
  let t := { t with auto_update_cycle := false }
  let t := t.beginUpdate
  match restoreStateLoop a_state_vector fuel (DriverNum.decr t.num_drivers) t with
  | none => none
  | some t =>
    let t := t.endUpdate.2
    some { t with auto_update_cycle := tmpUpdate }

/-- The loop of `restoreState` after `n` further iterations (its test
`i >= 0` never fails, see `restoreStateLoop_run`): the counter and the object
reached from counter value `i` and object `t`. -/
def restoreStateRun (a_state_vector : Nat → A6281Packet) :
    Nat → Nat × TinyA6281 → Nat × TinyA6281
  | 0, it => it
  | n + 1, (i, t) =>
    restoreStateRun a_state_vector n (DriverNum.decr i, restoreStateBody a_state_vector i t)

/-- The object on which the loop of `restoreState` starts: auto-update
switched off, then `beginUpdate`. -/
def restoreStateEntry (t : TinyA6281) : TinyA6281 :=
  ({ t with auto_update_cycle := false } : TinyA6281).beginUpdate

/-- The writes made to pin `pinId` among the platform calls `cs`, in order. -/
def writesTo (pinId : Nat) (cs : List MCUCall) : List Bool :=
  cs.filterMap (fun c =>
    match c with
    | .digitalOut q v => if q = pinId then some v else none
    | _ => none)

/-- The packets sent one by one with `sendPacket(p)`, first of the list first. -/
def sendEach (t : TinyA6281) (ps : List A6281Packet) : TinyA6281 :=
  ps.foldl (fun t p => t.sendPacket p 1) t

/-- The method `sendPacket(packet)` called `n` times in a row. -/
def sendPacketRepeated (packet : A6281Packet) : Nat → TinyA6281 → TinyA6281
  | 0, t => t
  | n + 1, t => sendPacketRepeated packet n (t.sendPacket packet 1)

/-- The array starting at the address of a pointer argument holds `s`. -/
def pointsTo (a : Nat → A6281Packet) (s : List A6281Packet) : Prop :=
  ∀ i (h : i < s.length), a i = s.get ⟨i, h⟩

/-- A pointer to an array holding `s`; the memory after the array reads as `junk`. -/
def arrayPtr (s : List A6281Packet) (junk : A6281Packet) : Nat → A6281Packet :=
  fun i => s.getD i junk

/-- The members of the object that state tracking uses: `tracking_state`,
`state_vector`, `state_vector_head_idx` and `num_drivers`. -/
def tracker (t : TinyA6281) : Bool × Option (List A6281Packet) × Nat × Nat :=
  (t.tracking_state, t.state_vector, t.state_vector_head_idx, t.num_drivers)

/-- The ring buffer `v` read from slot `head` onwards, wrapping round at its end. -/
def ringView (v : List A6281Packet) (head : Nat) : List A6281Packet :=
  v.drop head ++ v.take head

/-- State tracking is on over an allocated buffer of `L` slots which, read
from the head index onwards, holds `view`. -/
def Tracks (t : TinyA6281) (L : Nat) (view : List A6281Packet) : Prop :=
  t.tracking_state = true ∧ t.num_drivers = L ∧ t.state_vector_head_idx ≤ L ∧
  ∃ v, t.state_vector = some v ∧ v.length = L ∧ ringView v t.state_vector_head_idx = view

/-- The packet at the address `getState(driver_index)` returns, `none` when it
returns `NULL`. -/
def getStateValue (t : TinyA6281) (driver_index : Nat) : Option A6281Packet :=
  match t.getState driver_index, t.state_vector with
  | some i, some sv => some (sv.getD i ⟨0⟩)
  | _, _ => none

/-- The members of the object that state tracking does not use: the enable
flag, the four pins, `num_sent`, `auto_update_cycle`, and the platform calls
made so far. -/
def controller (t : TinyA6281) : Bool × Nat × Nat × Nat × Nat × Nat × Bool × List MCUCall :=
  (t.using_nEnable, t.pin_data, t.pin_clock, t.pin_latch, t.pin_nEnable, t.num_sent,
    t.auto_update_cycle, t.mcu)

/-! ### The wire protocol as the specification words it -/

/-- The 32 bits of a packet in wire order, most significant bit first. -/
def wireBits (p : A6281Packet) : List Bool :=
  (List.range 32).map (fun k => decide (p.bit (31 - k) = 1))

/-- One data value on the wire: the data line is driven to the value, then
the clock line is pulsed high and low with the settle delay after each edge. -/
def bitPulse (dataPin clockPin : Nat) (b : Bool) : List MCUCall :=
  [.digitalOut dataPin b, .digitalOut clockPin HIGH, .delayUs TA6281_CLOCK_DELAY_US,
   .digitalOut clockPin LOW, .delayUs TA6281_CLOCK_DELAY_US]

/-- One packet on the wire: its 32 bits, most significant first, each with
its clock pulse. -/
def packetPulses (dataPin clockPin : Nat) (p : A6281Packet) : List MCUCall :=
  (List.range 32).flatMap (fun k => bitPulse dataPin clockPin (decide (p.bit (31 - k) = 1)))

/-- One latch pulse: latch line high, hold, latch line low. -/
def latchPulse (latchPin : Nat) : List MCUCall :=
  [.digitalOut latchPin HIGH, .delayUs TA6281_LATCH_DELAY_US, .digitalOut latchPin LOW]

/-! ### Sequences of public operations -/

/-- A call of a public method that changes the object.  `sendPackets` is
called with an array holding the listed packets and its length as count. -/
inductive Op where
  | setStateTracking (setTo mallocOk : Bool)
  | setAutoUpdate (setTo : Bool)
  | beginUpdate
  | endUpdate
  | sendPacket (packet : A6281Packet) (num_times : Nat)
  | sendPackets (packets : List A6281Packet)
  | sendPacketToAll (packet : A6281Packet)
  | sendPWMValues (pwm0 pwm1 pwm2 : Nat)
  | sendCommand (correct0 correct1 correct2 clockMode : Nat)
deriving DecidableEq, Repr

/-- The object after the call `op`. -/
def Op.run (op : Op) (t : TinyA6281) : TinyA6281 :=
  match op with
  | .setStateTracking setTo mallocOk => (t.setStateTracking setTo mallocOk).2
  | .setAutoUpdate setTo => t.setAutoUpdate setTo
  | .beginUpdate => t.beginUpdate
  | .endUpdate => t.endUpdate.2
  | .sendPacket packet num_times => t.sendPacket packet num_times
  | .sendPackets packets => t.sendPackets (arrayPtr packets ⟨0⟩) packets.length
  | .sendPacketToAll packet => t.sendPacketToAll packet
  | .sendPWMValues pwm0 pwm1 pwm2 => t.sendPWMValues pwm0 pwm1 pwm2
  | .sendCommand c0 c1 c2 clockMode => t.sendCommand c0 c1 c2 clockMode

/-- The object after the calls `ops`, first of the list first. -/
def runOps (t : TinyA6281) (ops : List Op) : TinyA6281 :=
  ops.foldl (fun t op => op.run t) t

/-- The call is one of the send methods. -/
def Op.isSend : Op → Bool
  | .sendPacket _ _ => true
  | .sendPackets _ => true
  | .sendPacketToAll _ => true
  | .sendPWMValues _ _ _ => true
  | .sendCommand _ _ _ _ => true
  | _ => false

/-- The number of packets a call clocks out on a chain of `num_drivers`
chips, every repetition of a repeated send counting as one. -/
def Op.packetCount (num_drivers : Nat) : Op → Nat
  | .sendPacket _ num_times => num_times
  | .sendPackets packets => packets.length
  | .sendPacketToAll _ => num_drivers
  | .sendPWMValues _ _ _ => 1
  | .sendCommand _ _ _ _ => 1
  | _ => 0

/-- The number of packets sent by the calls `ops`. -/
def packetsSent (num_drivers : Nat) (ops : List Op) : Nat :=
  (ops.map (Op.packetCount num_drivers)).sum

/-- The number of stores into the ring buffer the call `op` makes when run
on `t`: a `sendPacket` stores once when tracking is on and the state vector
is allocated (line 310 of `TinyA6281.cpp`), and not otherwise. -/
def Op.stores (t : TinyA6281) : Op → Nat
  | .sendPacket _ _ => if t.tracking_state && t.state_vector.isSome then 1 else 0
  | .sendPackets packets => if t.tracking_state && t.state_vector.isSome then packets.length else 0
  | .sendPacketToAll _ => if t.tracking_state && t.state_vector.isSome then 1 else 0
  | .sendPWMValues _ _ _ => if t.tracking_state && t.state_vector.isSome then 1 else 0
  | .sendCommand _ _ _ _ => if t.tracking_state && t.state_vector.isSome then 1 else 0
  | _ => 0

/-- The number of stores into the ring buffer made by the calls `ops` run
from `t`. -/
def storesMade (t : TinyA6281) : List Op → Nat
  | [] => 0
  | op :: ops => op.stores t + storesMade (op.run t) ops

/-- The ring buffer after `r` stores on a chain of `L` chips: not allocated
and nothing stored, or allocated with `L` slots and the head index either
still at `L` (nothing stored) or in bounds (something stored). -/
def BufferInv (t : TinyA6281) (L r : Nat) : Prop :=
  t.num_drivers = L ∧
  ((t.state_vector = none ∧ r = 0) ∨
   (∃ sv, t.state_vector = some sv ∧ sv.length = L ∧
      ((r = 0 ∧ t.state_vector_head_idx = L) ∨ (0 < r ∧ t.state_vector_head_idx < L))))

/-! ### The slots of the state vector that the methods access -/

/-- The slot of `state_vector` into which the state-tracking block of
`sendPacket` stores when it is run on `t` (the index of
`state_vector[state_vector_head_idx] = packet` after the head has been
stepped); `none` when the block is skipped. -/
def sendPacketStoreIndex (t : TinyA6281) : Option Nat :=
  match t.state_vector with
  | some _ =>
    if t.tracking_state then
      some (if t.state_vector_head_idx != 0 then t.state_vector_head_idx - 1
            else DriverNum.decr t.num_drivers)
    else none
  | none => none

/-- The slots of `state_vector` read by the copy loop of `saveState`
(the indices `cur_idx` of `state_vector[cur_idx++]`), with `k` iterations
left. -/
def saveStateLoopReads (num_drivers : Nat) : Nat → Nat → List Nat
  | 0, _ => []
  | k + 1, cur_idx =>
    let x := cur_idx
    let cur_idx := DriverNum.incr cur_idx
    let cur_idx := if cur_idx >= num_drivers then 0 else cur_idx
    x :: saveStateLoopReads num_drivers k cur_idx

/-- The slots of `state_vector` that a call of `saveState` on `t` reads. -/
def saveStateReads (t : TinyA6281) : List Nat :=
  match t.state_vector with
  | none => []
  | some _ =>
    if t.state_vector_head_idx >= t.num_drivers then []
    else saveStateLoopReads t.num_drivers t.num_drivers t.state_vector_head_idx

/-- The slots stored into by the single-packet sends of `ps` in turn, started
on `t`.  The slot of a store depends on the tracker members only, which a
send changes as its state-tracking block does. -/
def sendEachStoreIndices (t : TinyA6281) : List A6281Packet → List Nat
  | [] => []
  | p :: ps => (sendPacketStoreIndex t).toList ++ sendEachStoreIndices (sendPacketTrack p t) ps

/-- The slots of `state_vector` the call `op` stores into when run on `t`
(`sendPacket` runs its state-tracking block once, `sendPackets` once per
packet; no other operation stores into an allocated buffer). -/
def Op.storeIndices (t : TinyA6281) : Op → List Nat
  | .sendPacket _ _ => (sendPacketStoreIndex t).toList
  | .sendPackets packets => sendEachStoreIndices t packets
  | .sendPacketToAll _ => (sendPacketStoreIndex t).toList
  | .sendPWMValues _ _ _ => (sendPacketStoreIndex t).toList
  | .sendCommand _ _ _ _ => (sendPacketStoreIndex t).toList
  | _ => []

/-- The slots of `state_vector` stored into by the calls `ops` run from `t`. -/
def storeIndicesMade (t : TinyA6281) : List Op → List Nat
  | [] => []
  | op :: ops => op.storeIndices t ++ storeIndicesMade (op.run t) ops

end TinyA6281

/-! ## The colour-naming wrapper (`TinyBrite.h`, `TinyBrite.cpp`) -/

/-- The `BritePacket` union, represented by its `unsigned long value`
member; its bit-fields are laid out like those of `A6281Packet`. -/
structure BritePacket where
  value : Nat
deriving DecidableEq, Repr

namespace BritePacket

/-- Read a bit-field of `width` bits that starts at bit `off`. -/
def getField (off width : Nat) (p : BritePacket) : Nat :=
  (p.value / 2 ^ off) % 2 ^ width

/-- Assign `x` to a bit-field of `width` bits that starts at bit `off`. -/
def setField (off width : Nat) (p : BritePacket) (x : Nat) : BritePacket :=
  ⟨p.value - getField off width p * 2 ^ off + (x % 2 ^ width) * 2 ^ off⟩

/-- Field `unsigned green :10` (bits 0..9). -/
def green (p : BritePacket) : Nat := getField 0 10 p
/-- Field `unsigned red :10` (bits 10..19). -/
def red (p : BritePacket) : Nat := getField 10 10 p
/-- Field `unsigned blue :10` (bits 20..29). -/
def blue (p : BritePacket) : Nat := getField 20 10 p
/-- Field `unsigned mode_pwm :1` (bit 30). -/
def mode_pwm (p : BritePacket) : Nat := getField 30 1 p
/-- Field `unsigned greenDotCorrect :7` (bits 0..6). -/
def greenDotCorrect (p : BritePacket) : Nat := getField 0 7 p
/-- Field `unsigned clockMode :2` (bits 7..8); bit 9 is an unnamed pad. -/
def clockMode (p : BritePacket) : Nat := getField 7 2 p
/-- Field `unsigned redDotCorrect :7` (bits 10..16); bits 17..19 are pad. -/
def redDotCorrect (p : BritePacket) : Nat := getField 10 7 p
/-- Field `unsigned blueDotCorrect :7` (bits 20..26); bit 27 is pad. -/
def blueDotCorrect (p : BritePacket) : Nat := getField 20 7 p
/-- Field `unsigned mode_correct :1` (bit 30). -/
def mode_correct (p : BritePacket) : Nat := getField 30 1 p

end BritePacket

/-- Macro `TMB_SETCOLORPACKET(packet, red, green, blue)`: it assigns `green`,
then `red`, then `blue`, then the mode. -/
def TMB_SETCOLORPACKET (packet : BritePacket) (red green blue : Nat) : BritePacket :=
  let packet := BritePacket.setField 0 10 packet green
  let packet := BritePacket.setField 10 10 packet red
  let packet := BritePacket.setField 20 10 packet blue
  BritePacket.setField 30 1 packet TA6281_MODE_PWM

/-- Macro `TMB_SETCOMMANDPACKET(packet, correctRed, correctGreen, correctBlue, clockMode)`. -/
def TMB_SETCOMMANDPACKET (packet : BritePacket)
    (correctRed correctGreen correctBlue clockMode : Nat) : BritePacket :=
  let packet := BritePacket.setField 0 7 packet correctGreen
  let packet := BritePacket.setField 10 7 packet correctRed
  let packet := BritePacket.setField 20 7 packet correctBlue
  let packet := BritePacket.setField 7 2 packet clockMode
  BritePacket.setField 30 1 packet TA6281_MODE_CORRECT

/-- Static method `TinyBrite::colorPacket(red, green, blue)`. -/
def TinyBrite.colorPacket (red green blue : Nat) : BritePacket :=
  let mpacket : BritePacket := ⟨0⟩
  TMB_SETCOLORPACKET mpacket red green blue

/-- Static method `TinyBrite::commandPacket(redCorrect, greenCorrect,
blueCorrect, clockMode)`. -/
def TinyBrite.commandPacket (redCorrect greenCorrect blueCorrect clockMode : Nat) :
    BritePacket :=
  let mpacket : BritePacket := ⟨0⟩
  TMB_SETCOMMANDPACKET mpacket redCorrect greenCorrect blueCorrect clockMode

/-! ## Packet encoding -/

theorem pwmPacket_value (a b c : Nat) :
    (TinyA6281.pwmPacket a b c).value = a % 1024 + (b % 1024) * 2 ^ 10 + (c % 1024) * 2 ^ 20 := by
  simp only [TinyA6281.pwmPacket, TA6281_SETPWMPACKET, A6281Packet.setField,
    A6281Packet.getField, TA6281_MODE_PWM]
  norm_num
  omega

theorem commandPacket_value (c0 c1 c2 m : Nat) :
    (TinyA6281.commandPacket c0 c1 c2 m).value
      = c0 % 128 + (m % 4) * 2 ^ 7 + (c1 % 128) * 2 ^ 10 + (c2 % 128) * 2 ^ 20 + 2 ^ 30 := by
  simp only [TinyA6281.commandPacket, TA6281_SETCOMMANDPACKET, A6281Packet.setField,
    A6281Packet.getField, TA6281_MODE_CORRECT]
  norm_num
  omega

/-- Claim C5: for all `ch0, ch1, ch2` in [0, 1023] the PWM field view of
`pwmPacket ch0 ch1 ch2` reads back exactly `(ch0, ch1, ch2)` and its mode
flag reads as PWM (0). -/
theorem pwmPacket_roundtrip (ch0 ch1 ch2 : Nat)
    (h0 : ch0 ≤ 1023) (h1 : ch1 ≤ 1023) (h2 : ch2 ≤ 1023) :
    (TinyA6281.pwmPacket ch0 ch1 ch2).pwm_0 = ch0 ∧
    (TinyA6281.pwmPacket ch0 ch1 ch2).pwm_1 = ch1 ∧
    (TinyA6281.pwmPacket ch0 ch1 ch2).pwm_2 = ch2 ∧
    (TinyA6281.pwmPacket ch0 ch1 ch2).mode_pwm = TA6281_MODE_PWM := by
  simp only [A6281Packet.pwm_0, A6281Packet.pwm_1, A6281Packet.pwm_2, A6281Packet.mode_pwm,
    A6281Packet.getField, pwmPacket_value, TA6281_MODE_PWM]
  norm_num
  omega

/-- Witness of C5 at the channel values (1023, 0, 513). -/
theorem pwmPacket_roundtrip_witness :
    (TinyA6281.pwmPacket 1023 0 513).pwm_0 = 1023 ∧
    (TinyA6281.pwmPacket 1023 0 513).pwm_1 = 0 ∧
    (TinyA6281.pwmPacket 1023 0 513).pwm_2 = 513 ∧
    (TinyA6281.pwmPacket 1023 0 513).mode_pwm = TA6281_MODE_PWM :=
  pwmPacket_roundtrip 1023 0 513 (by decide) (by decide) (by decide)

/-- Claim C6: the raw value of `commandPacket c0 c1 c2 clockMode` is
`c0 mod 128 + (clockMode mod 4) * 2^7 + (c1 mod 128) * 2^10 + (c2 mod 128) * 2^20 + 2^30`
for all inputs, and bits 9, 17, 18, 19, 27, 28 (atb0), 29 (atb1) and 31 of it
are zero. -/
theorem commandPacket_layout (c0 c1 c2 clockMode : Nat) :
    (TinyA6281.commandPacket c0 c1 c2 clockMode).value
      = c0 % 128 + (clockMode % 4) * 2 ^ 7 + (c1 % 128) * 2 ^ 10 + (c2 % 128) * 2 ^ 20 + 2 ^ 30 ∧
    (∀ k ∈ [9, 17, 18, 19, 27, 28, 29, 31],
      (TinyA6281.commandPacket c0 c1 c2 clockMode).bit k = 0) ∧
    (TinyA6281.commandPacket c0 c1 c2 clockMode).atb0 = 0 ∧
    (TinyA6281.commandPacket c0 c1 c2 clockMode).atb1 = 0 := by
  refine ⟨commandPacket_value c0 c1 c2 clockMode, ?_, ?_, ?_⟩
  · intro k hk
    simp only [List.mem_cons, List.mem_singleton, List.not_mem_nil, or_false] at hk
    simp only [A6281Packet.bit, commandPacket_value]
    rcases hk with h | h | h | h | h | h | h | h <;> subst h <;> norm_num <;> omega
  · simp only [A6281Packet.atb0, A6281Packet.getField, commandPacket_value]
    norm_num
    omega
  · simp only [A6281Packet.atb1, A6281Packet.getField, commandPacket_value]
    norm_num
    omega

/-- Claim C7: for all unsigned inputs the raw value of `pwmPacket a b c` is
`a mod 1024 + (b mod 1024) * 2^10 + (c mod 1024) * 2^20`, so the packet equals
the one built from the inputs reduced modulo 1024, and each field and the
mode flag depend on their own input only. -/
theorem pwmPacket_truncates (a b c : Nat) :
    (TinyA6281.pwmPacket a b c).value = a % 1024 + (b % 1024) * 2 ^ 10 + (c % 1024) * 2 ^ 20 ∧
    TinyA6281.pwmPacket a b c = TinyA6281.pwmPacket (a % 1024) (b % 1024) (c % 1024) ∧
    (TinyA6281.pwmPacket a b c).pwm_0 = a % 1024 ∧
    (TinyA6281.pwmPacket a b c).pwm_1 = b % 1024 ∧
    (TinyA6281.pwmPacket a b c).pwm_2 = c % 1024 ∧
    (TinyA6281.pwmPacket a b c).mode_pwm = TA6281_MODE_PWM := by
  refine ⟨pwmPacket_value a b c, ?_, ?_⟩
  · have h : ∀ p q : A6281Packet, p.value = q.value → p = q := by
      intro p q hpq
      cases p; cases q; simp_all
    apply h
    rw [pwmPacket_value, pwmPacket_value]
    simp
  · simp only [A6281Packet.pwm_0, A6281Packet.pwm_1, A6281Packet.pwm_2, A6281Packet.mode_pwm,
      A6281Packet.getField, pwmPacket_value, TA6281_MODE_PWM]
    norm_num
    omega

/-- Claim C8 as stated fails: bit 31 of `commandPacket 0 0 0 0` is 0, not 1
(its raw value is `2 ^ 30`). -/
theorem commandPacket_bit31_counterexample :
    (TinyA6281.commandPacket 0 0 0 0).bit 31 = 0 ∧
    (TinyA6281.commandPacket 0 0 0 0).bit 31 ≠ 1 ∧
    (TinyA6281.commandPacket 0 0 0 0).value = 2 ^ 30 := by
  decide

/-- Claim C8, amended: the mode flag sits at bit 30 of the 32-bit word, below
the most significant bit: every packet built by `pwmPacket` has bit 30 = 0,
every packet built by `commandPacket` has bit 30 = 1, and bit 31 is 0 in
both. -/
theorem mode_flag_at_bit30 (a b c m : Nat) :
    (TinyA6281.pwmPacket a b c).bit 30 = 0 ∧
    (TinyA6281.pwmPacket a b c).bit 31 = 0 ∧
    (TinyA6281.commandPacket a b c m).bit 30 = 1 ∧
    (TinyA6281.commandPacket a b c m).bit 31 = 0 ∧
    (TinyA6281.pwmPacket a b c).mode_pwm = (TinyA6281.pwmPacket a b c).bit 30 ∧
    (TinyA6281.commandPacket a b c m).mode_correct = (TinyA6281.commandPacket a b c m).bit 30 := by
  simp only [A6281Packet.bit, A6281Packet.mode_pwm, A6281Packet.mode_correct,
    A6281Packet.getField, pwmPacket_value, commandPacket_value]
  norm_num
  omega

/-- Claim C9: for correction triples in [0,127]^3 and clock modes in [0,3]
the mode flag of `commandPacket` reads as CORRECTION (1), every `pwmPacket`
has mode flag PWM (0), and no `commandPacket` has the raw value of any
`pwmPacket`. -/
theorem commandPacket_mode_isolated (c0 c1 c2 clockMode : Nat)
    (h0 : c0 ≤ 127) (h1 : c1 ≤ 127) (h2 : c2 ≤ 127) (hm : clockMode ≤ 3) :
    (TinyA6281.commandPacket c0 c1 c2 clockMode).mode_correct = TA6281_MODE_CORRECT ∧
    (∀ a b c : Nat, (TinyA6281.pwmPacket a b c).mode_pwm = TA6281_MODE_PWM) ∧
    (∀ a b c : Nat,
      (TinyA6281.commandPacket c0 c1 c2 clockMode).value ≠ (TinyA6281.pwmPacket a b c).value) := by
  refine ⟨?_, ?_, ?_⟩
  · simp only [A6281Packet.mode_correct, A6281Packet.getField, commandPacket_value,
      TA6281_MODE_CORRECT]
    norm_num
    omega
  · intro a b c
    simp only [A6281Packet.mode_pwm, A6281Packet.getField, pwmPacket_value, TA6281_MODE_PWM]
    norm_num
    omega
  · intro a b c
    rw [commandPacket_value, pwmPacket_value]
    norm_num
    omega

/-- Witness of C9 at the correction triple (127, 0, 64) with clock mode 3. -/
theorem commandPacket_mode_isolated_witness :
    (TinyA6281.commandPacket 127 0 64 3).mode_correct = TA6281_MODE_CORRECT ∧
    (∀ a b c : Nat, (TinyA6281.pwmPacket a b c).mode_pwm = TA6281_MODE_PWM) ∧
    (∀ a b c : Nat,
      (TinyA6281.commandPacket 127 0 64 3).value ≠ (TinyA6281.pwmPacket a b c).value) :=
  commandPacket_mode_isolated 127 0 64 3 (by decide) (by decide) (by decide) (by decide)

/-! ## State tracking: the ring buffer -/

namespace TinyA6281

theorem tracker_call (t : TinyA6281) (c : MCUCall) : (t.call c).tracker = t.tracker := rfl

theorem tracker_sendPacketBit (p : A6281Packet) (i : Nat) (t : TinyA6281) :
    (sendPacketBit p i t).tracker = t.tracker := by
  simp only [sendPacketBit, tracker_call]
  split <;> exact tracker_call _ _

theorem tracker_sendPacketBits (p : A6281Packet) (k i : Nat) (t : TinyA6281) :
    (sendPacketBits p k i t).tracker = t.tracker := by
  induction k generalizing i t with
  | zero => rfl
  | succ k ih => rw [sendPacketBits, ih, tracker_sendPacketBit]

theorem tracker_sendPacketTimes (p : A6281Packet) (n : Nat) (t : TinyA6281) :
    (sendPacketTimes p n t).tracker = t.tracker := by
  induction n generalizing t with
  | zero => rfl
  | succ n ih =>
    rw [sendPacketTimes, ih]
    exact tracker_sendPacketBits p 32 1 t

theorem tracker_beginUpdate (t : TinyA6281) : t.beginUpdate.tracker = t.tracker := rfl

theorem tracker_endUpdate (t : TinyA6281) : t.endUpdate.2.tracker = t.tracker := by
  unfold endUpdate
  simp only []
  split <;> rfl

theorem tracker_sendPacketTrack_congr (p : A6281Packet) (a b : TinyA6281)
    (h : a.tracker = b.tracker) :
    (sendPacketTrack p a).tracker = (sendPacketTrack p b).tracker := by
  simp only [tracker, Prod.mk.injEq] at h
  obtain ⟨h1, h2, h3, h4⟩ := h
  unfold sendPacketTrack
  cases hb : b.state_vector with
  | none => rw [hb] at h2; simp [h2, tracker, h1, h3, h4, hb]
  | some sv =>
    rw [hb] at h2
    simp only [h2, h1, h3, h4]
    cases b.tracking_state <;> simp [tracker, h1, h2, h3, h4, hb]

/-- A call of `sendPacket` changes the state-tracking members exactly as its
state-tracking block does, whatever the repeat count. -/
theorem tracker_sendPacket (t : TinyA6281) (p : A6281Packet) (n : Nat) :
    (t.sendPacket p n).tracker = (sendPacketTrack p t).tracker := by
  have h1 : (sendPacketTrack p (sendPacketTimes p n
      (if t.auto_update_cycle then t.beginUpdate else t))).tracker
      = (sendPacketTrack p t).tracker := by
    apply tracker_sendPacketTrack_congr
    rw [tracker_sendPacketTimes]
    split
    · exact tracker_beginUpdate t
    · rfl
  have h2 : ∀ x : TinyA6281,
      (if x.auto_update_cycle = true then x.endUpdate.2 else x).tracker = x.tracker := by
    intro x
    split
    · exact tracker_endUpdate x
    · rfl
  unfold sendPacket
  simp only []
  rw [h2]
  exact h1

end TinyA6281

namespace TinyA6281

theorem set_length_append (A B : List A6281Packet) (x p : A6281Packet) :
    (A ++ x :: B).set A.length p = A ++ p :: B := by
  induction A with
  | nil => rfl
  | cons a A ih => simp [ih]

theorem drop_length_append (A B : List A6281Packet) : (A ++ B).drop A.length = B := by
  induction A with
  | nil => rfl
  | cons a A ih => simp [ih]

theorem take_length_append (A B : List A6281Packet) : (A ++ B).take A.length = A := by
  induction A with
  | nil => simp
  | cons a A ih => simp [ih]

theorem split_at (v : List A6281Packet) (k : Nat) (hk : k < v.length) :
    ∃ A x B, v = A ++ x :: B ∧ A.length = k := by
  induction v generalizing k with
  | nil => simp at hk
  | cons a v ih =>
    cases k with
    | zero => exact ⟨[], a, v, rfl, rfl⟩
    | succ k =>
      obtain ⟨A, x, B, hv, hA⟩ := ih k (by simpa using hk)
      exact ⟨a :: A, x, B, by simp [hv], by simp [hA]⟩

theorem ringView_set_decomp (A B : List A6281Packet) (x p : A6281Packet) :
    ringView ((A ++ x :: B).set A.length p) A.length
      = p :: (ringView (A ++ x :: B) (A.length + 1)).dropLast := by
  have e : A ++ x :: B = (A ++ [x]) ++ B := by simp
  have hl : A.length + 1 = (A ++ [x]).length := by simp
  rw [set_length_append]
  unfold ringView
  rw [drop_length_append, take_length_append, hl, e, drop_length_append, take_length_append,
    ← List.append_assoc, List.dropLast_concat]
  simp

/-- Storing `p` one slot before the head shifts the view: `p` enters at the
front and the last element falls out. -/
theorem ringView_set_pred (v : List A6281Packet) (h : Nat) (p : A6281Packet)
    (h1 : 1 ≤ h) (h2 : h ≤ v.length) :
    ringView (v.set (h - 1) p) (h - 1) = p :: (ringView v h).dropLast := by
  obtain ⟨A, x, B, hv, hA⟩ := split_at v (h - 1) (by omega)
  have hh : h = A.length + 1 := by omega
  subst hv
  subst hh
  simp only [Nat.add_sub_cancel]
  exact ringView_set_decomp A B x p

theorem ringView_zero (v : List A6281Packet) : ringView v 0 = v := by
  simp [ringView]

theorem ringView_length (v : List A6281Packet) : ringView v v.length = v := by
  simp [ringView]

theorem length_ringView (v : List A6281Packet) (h : Nat) (hh : h ≤ v.length) :
    (ringView v h).length = v.length := by
  simp [ringView]
  omega

theorem Tracks_congr (a b : TinyA6281) (h : a.tracker = b.tracker) (L : Nat)
    (view : List A6281Packet) (hb : Tracks b L view) : Tracks a L view := by
  simp only [tracker, Prod.mk.injEq] at h
  obtain ⟨h1, h2, h3, h4⟩ := h
  unfold Tracks at *
  rw [h1, h2, h3, h4]
  exact hb

theorem Tracks_length (t : TinyA6281) (L : Nat) (view : List A6281Packet)
    (h : Tracks t L view) : view.length = L := by
  obtain ⟨_, _, hh, v, _, hlen, hview⟩ := h
  rw [← hview, length_ringView v _ (by omega), hlen]

/-- The state-tracking block of `sendPacket` on a tracked buffer: the packet
becomes the first element of the view, the last one is dropped, and the head
index is in bounds afterwards. -/
theorem Tracks_sendPacketTrack (t : TinyA6281) (L : Nat) (view : List A6281Packet)
    (p : A6281Packet) (hL : 1 ≤ L) (hL255 : L ≤ 255) (h : Tracks t L view) :
    Tracks (sendPacketTrack p t) L (p :: view.dropLast) ∧
    (sendPacketTrack p t).state_vector_head_idx < L := by
  obtain ⟨ht, hn, hh, v, hv, hlen, hview⟩ := h
  by_cases h0 : t.state_vector_head_idx = 0
  · have hd : DriverNum.decr t.num_drivers = L - 1 := by
      simp only [DriverNum.decr, DriverNum.size]
      omega
    have hview0 : ringView v L = view := by
      rw [← hview, h0, ringView_zero, ← hlen, ringView_length]
    have key : sendPacketTrack p t =
        { t with state_vector_head_idx := L - 1, state_vector := some (v.set (L - 1) p) } := by
      simp [sendPacketTrack, hv, ht, h0, hd]
    rw [key]
    refine ⟨⟨ht, hn, Nat.sub_le L 1, v.set (L - 1) p, rfl, by simp [hlen], ?_⟩, ?_⟩
    · show ringView (v.set (L - 1) p) (L - 1) = p :: view.dropLast
      rw [ringView_set_pred v L p hL (by omega), hview0]
    · show L - 1 < L
      omega
  · have key : sendPacketTrack p t =
        { t with state_vector_head_idx := t.state_vector_head_idx - 1,
                 state_vector := some (v.set (t.state_vector_head_idx - 1) p) } := by
      simp [sendPacketTrack, hv, ht, h0]
    rw [key]
    refine ⟨⟨ht, hn, ?_, v.set (t.state_vector_head_idx - 1) p, rfl, by simp [hlen], ?_⟩, ?_⟩
    · show t.state_vector_head_idx - 1 ≤ L
      omega
    · show ringView (v.set (t.state_vector_head_idx - 1) p) (t.state_vector_head_idx - 1)
          = p :: view.dropLast
      rw [ringView_set_pred v _ p (by omega) (by omega), hview]
    · show t.state_vector_head_idx - 1 < L
      omega

/-- A call of `sendPacket` on a tracked buffer, for any repeat count. -/
theorem Tracks_sendPacket (t : TinyA6281) (L : Nat) (view : List A6281Packet)
    (p : A6281Packet) (n : Nat) (hL : 1 ≤ L) (hL255 : L ≤ 255) (h : Tracks t L view) :
    Tracks (t.sendPacket p n) L (p :: view.dropLast) ∧
    (t.sendPacket p n).state_vector_head_idx < L := by
  have e := tracker_sendPacket t p n
  obtain ⟨h1, h2⟩ := Tracks_sendPacketTrack t L view p hL hL255 h
  refine ⟨Tracks_congr _ _ e L _ h1, ?_⟩
  simp only [tracker, Prod.mk.injEq] at e
  rw [e.2.2.1]
  exact h2

end TinyA6281

namespace TinyA6281

theorem drop_eq_getD_cons (v : List A6281Packet) (k : Nat) (d : A6281Packet)
    (hk : k < v.length) : v.drop k = v.getD k d :: v.drop (k + 1) := by
  induction v generalizing k with
  | nil => simp at hk
  | cons a v ih =>
    cases k with
    | zero => simp
    | succ k => simpa using ih k (by simpa using hk)

/-- The copy loop of `saveState` reads the slots `cur`, `cur + 1`, ... up to
the end of the buffer and then carries on from slot 0. -/
theorem saveStateLoop_segment (v : List A6281Packet) (L : Nat) (hlen : v.length = L)
    (hL255 : L ≤ 255) (rest : Nat) :
    ∀ n cur, cur < L → cur + n ≤ L →
      saveStateLoop v L (n + rest) cur
        = (v.drop cur).take n ++ saveStateLoop v L rest (if cur + n ≥ L then 0 else cur + n) := by
  intro n
  induction n with
  | zero =>
    intro cur hc _
    have : ¬ (cur ≥ L) := by omega
    simp [this]
  | succ n ih =>
    intro cur hc hn
    have e : n + 1 + rest = (n + rest) + 1 := by omega
    have hi : DriverNum.incr cur = cur + 1 := by
      simp only [DriverNum.incr, DriverNum.size]
      omega
    rw [e, saveStateLoop]
    simp only [hi]
    rw [drop_eq_getD_cons v cur ⟨0⟩ (by omega), List.take_succ_cons, List.cons_append]
    congr 1
    by_cases hc1 : cur + 1 ≥ L
    · have hn0 : n = 0 := by omega
      subst hn0
      simp [hc1]
    · rw [if_neg hc1, ih (cur + 1) (by omega) (by omega)]
      have : cur + 1 + n = cur + (n + 1) := by omega
      rw [this]

theorem saveStateLoop_eq_ringView (v : List A6281Packet) (L h : Nat) (hlen : v.length = L)
    (hL255 : L ≤ 255) (hh : h < L) : saveStateLoop v L L h = ringView v h := by
  have e : L = (L - h) + h := by omega
  have h1 := saveStateLoop_segment v L hlen hL255 h (L - h) h hh (by omega)
  have h2 := saveStateLoop_segment v L hlen hL255 0 h 0 (by omega) (by omega)
  have c : h + (L - h) ≥ L := by omega
  rw [if_pos c] at h1
  simp only [Nat.add_zero, List.drop_zero, saveStateLoop, List.append_nil] at h2
  have t1 : (v.drop h).take (L - h) = v.drop h := by
    apply List.take_of_length_le
    simp [hlen]
  conv_lhs => rw [e]
  conv_lhs at h1 => rw [← e]
  rw [← e, h1, h2, t1, ringView]

/-- On a tracked buffer whose head index is in bounds `saveState` returns the
chain length and writes the view. -/
theorem saveState_of_Tracks (t : TinyA6281) (L : Nat) (view : List A6281Packet)
    (hL255 : L ≤ 255) (h : Tracks t L view) (hh : t.state_vector_head_idx < L) :
    t.saveState = (L, view) := by
  obtain ⟨_, hn, _, v, hv, hlen, hview⟩ := h
  have c : ¬ (t.state_vector_head_idx ≥ L) := by omega
  simp only [saveState, hv, hn, if_neg c]
  rw [saveStateLoop_eq_ringView v L _ hlen hL255 hh, hview]

/-- The first `setStateTracking(true)` with a successful allocation. -/
theorem Tracks_fresh (L : Nat) (autoUpdates : Bool) (hL : 1 ≤ L) :
    Tracks ((construct L autoUpdates).setStateTracking true true).2 L
      (List.replicate L ⟨0⟩) ∧
    ((construct L autoUpdates).setStateTracking true true).2.state_vector_head_idx = L := by
  have hne : (L != 0) = true := by simp; omega
  have key : ((construct L autoUpdates).setStateTracking true true).2 =
      { construct L autoUpdates with
        tracking_state := true, state_vector := some (List.replicate L ⟨0⟩),
        state_vector_head_idx := L } := by
    simp [setStateTracking, construct, hne]
  rw [key]
  refine ⟨⟨rfl, rfl, Nat.le_refl L, List.replicate L ⟨0⟩, rfl, by simp, ?_⟩, rfl⟩
  show ringView (List.replicate L ⟨0⟩) L = List.replicate L ⟨0⟩
  simp [ringView]

theorem take_shift (X view : List A6281Packet) (p : A6281Packet) (L : Nat) (hL : 1 ≤ L)
    (hlen : view.length = L) :
    (X ++ p :: view.dropLast).take L = (X ++ [p] ++ view).take L := by
  have hne : view ≠ [] := by
    intro h
    simp [h] at hlen
    omega
  have e : X ++ [p] ++ view = (X ++ p :: view.dropLast) ++ [view.getLast hne] := by
    conv_lhs => rw [← List.dropLast_append_getLast hne]
    simp
  have hlen2 : (X ++ p :: view.dropLast).length = X.length + L := by
    simp only [List.length_append, List.length_cons, List.length_dropLast, hlen]
    omega
  rw [e]
  exact (List.take_append_of_le_length (by omega)).symm

/-- Single-packet sends on a tracked buffer shift the packets into the view,
the latest first. -/
theorem Tracks_sendEach (L : Nat) (hL : 1 ≤ L) (hL255 : L ≤ 255) (ps : List A6281Packet) :
    ∀ (t : TinyA6281) (view : List A6281Packet), Tracks t L view →
      Tracks (t.sendEach ps) L ((ps.reverse ++ view).take L) ∧
      (ps ≠ [] → (t.sendEach ps).state_vector_head_idx < L) := by
  induction ps with
  | nil =>
    intro t view h
    have hl := Tracks_length t L view h
    refine ⟨?_, fun hne => absurd rfl hne⟩
    simpa [sendEach, List.take_of_length_le (Nat.le_of_eq hl)] using h
  | cons p ps ih =>
    intro t view h
    have hl := Tracks_length t L view h
    obtain ⟨h1, h2⟩ := Tracks_sendPacket t L view p 1 hL hL255 h
    obtain ⟨h3, h4⟩ := ih (t.sendPacket p 1) (p :: view.dropLast) h1
    have e : (p :: ps).reverse ++ view = ps.reverse ++ [p] ++ view := by simp
    have e2 : sendEach t (p :: ps) = sendEach (t.sendPacket p 1) ps := rfl
    rw [e, e2, ← take_shift ps.reverse view p L hL hl]
    refine ⟨h3, fun _ => ?_⟩
    cases ps with
    | nil => exact h2
    | cons q qs => exact h4 (by simp)

end TinyA6281

/-- Claim C1: on a chain of length `L >= 1` with state tracking freshly
enabled (buffer just allocated), after `m >= L` single-packet sends
`P1..Pm` in that order `saveState` returns `L` and writes
`[Pm, Pm-1, ..., Pm-L+1]`, the most recently sent packet first; after exactly
`L` sends it writes `[PL, ..., P1]`. -/
theorem saveState_after_sends (L : Nat) (autoUpdates : Bool) (ps : List A6281Packet)
    (hL : 1 ≤ L) (hL255 : L ≤ 255) (hm : L ≤ ps.length) :
    ((((TinyA6281.construct L autoUpdates).setStateTracking true true).2).sendEach ps).saveState
      = (L, ps.reverse.take L) ∧
    (ps.length = L →
      ((((TinyA6281.construct L autoUpdates).setStateTracking true true).2).sendEach ps).saveState
        = (L, ps.reverse)) := by
  obtain ⟨h0, _⟩ := TinyA6281.Tracks_fresh L autoUpdates hL
  obtain ⟨h1, h2⟩ := TinyA6281.Tracks_sendEach L hL hL255 ps _ _ h0
  have hne : ps ≠ [] := by
    intro h
    simp [h] at hm
    omega
  have e := TinyA6281.saveState_of_Tracks _ L _ hL255 h1 (h2 hne)
  rw [List.take_append_of_le_length (by simpa using hm)] at e
  refine ⟨e, fun hlen => ?_⟩
  rw [e, List.take_of_length_le (by simp [hlen])]

/-- Witness of C1: the 4-driver example of the source commentary, sending
A, B, C, D, E (here the packets with raw values 1 to 5) saves `[E, D, C, B]`. -/
theorem saveState_after_sends_witness :
    ((((TinyA6281.construct 4 false).setStateTracking true true).2).sendEach
        [⟨1⟩, ⟨2⟩, ⟨3⟩, ⟨4⟩, ⟨5⟩]).saveState
      = (4, [⟨5⟩, ⟨4⟩, ⟨3⟩, ⟨2⟩]) :=
  (saveState_after_sends 4 false [⟨1⟩, ⟨2⟩, ⟨3⟩, ⟨4⟩, ⟨5⟩]
    (by decide) (by decide) (by decide)).1

/-! ## `sendPacketToAll` and the tracker -/

/-- Claim C10 fails on the code: on a chain of length 2 with tracking freshly
enabled, `sendPacketToAll(P)` records `P` once (head index 1, buffer
`[0, P]`), while two calls `sendPacket(P)` record it twice (head index 0,
buffer `[P, P]`); the saved states differ too. -/
theorem sendPacketToAll_records_once :
    (((TinyA6281.construct 2 false).setStateTracking true true).2.sendPacketToAll ⟨7⟩).tracker
      = (true, some [⟨0⟩, ⟨7⟩], 1, 2) ∧
    (TinyA6281.sendPacketRepeated ⟨7⟩ 2
        ((TinyA6281.construct 2 false).setStateTracking true true).2).tracker
      = (true, some [⟨7⟩, ⟨7⟩], 0, 2) ∧
    (((TinyA6281.construct 2 false).setStateTracking true true).2.sendPacketToAll ⟨7⟩).saveState
      = (2, [⟨7⟩, ⟨0⟩]) ∧
    (TinyA6281.sendPacketRepeated ⟨7⟩ 2
        ((TinyA6281.construct 2 false).setStateTracking true true).2).saveState
      = (2, [⟨7⟩, ⟨7⟩]) := by
  decide

/-! ## `restoreState` -/

namespace TinyA6281

/-- The loop of `restoreState` is never left: whatever the counter, the
object and the memory read, no amount of fuel lets it return. -/
theorem restoreStateLoop_none (a : Nat → A6281Packet) :
    ∀ (fuel i : Nat) (t : TinyA6281), restoreStateLoop a fuel i t = none := by
  intro fuel
  induction fuel with
  | zero => intro i t; rfl
  | succ n ih =>
    intro i t
    have h : (i : Int) ≥ 0 := Int.ofNat_nonneg i
    rw [restoreStateLoop, if_pos h, ih]

/-- The loop of `restoreState` always runs `n` further iterations. -/
theorem restoreStateLoop_run (a : Nat → A6281Packet) (fuel : Nat) :
    ∀ (n i : Nat) (t : TinyA6281),
      restoreStateLoop a (n + fuel) i t
        = restoreStateLoop a fuel (restoreStateRun a n (i, t)).1 (restoreStateRun a n (i, t)).2 := by
  intro n
  induction n with
  | zero => intro i t; simp [restoreStateRun]
  | succ n ih =>
    intro i t
    have h : (i : Int) ≥ 0 := Int.ofNat_nonneg i
    have e : n + 1 + fuel = (n + fuel) + 1 := by omega
    rw [e, restoreStateLoop, if_pos h, ih, restoreStateRun]

/-- The first `n` iterations of the loop of `restoreState`, entered with
counter `n - 1`, send `a[n-1]`, ..., `a[0]` in that order. -/
theorem restoreStateRun_sends (a : Nat → A6281Packet) :
    ∀ (n : Nat) (t : TinyA6281), n ≤ 255 →
      (restoreStateRun a n (DriverNum.decr n, t)).2
        = t.sendEach ((List.range n).reverse.map a) := by
  intro n
  induction n with
  | zero => intro t _; rfl
  | succ n ih =>
    intro t hn
    have hd : DriverNum.decr (n + 1) = n := by
      simp only [DriverNum.decr, DriverNum.size]
      omega
    rw [hd, restoreStateRun, ih _ (by omega), List.range_succ]
    simp [sendEach, restoreStateBody]

theorem map_range_pointsTo (a : Nat → A6281Packet) (s : List A6281Packet)
    (h : pointsTo a s) : (List.range s.length).map a = s := by
  apply List.ext_getElem
  · simp
  · intro i h1 h2
    simp only [List.getElem_map, List.getElem_range]
    exact h i h2

/-- After exactly `L` iterations of its loop, `restoreState` has sent the
saved sequence last element first and the tracker holds that sequence
again. -/
theorem restoreStateRun_saveState (L : Nat) (hL : 1 ≤ L) (hL255 : L ≤ 255)
    (t : TinyA6281) (view s : List A6281Packet) (a : Nat → A6281Packet)
    (ht : Tracks t L view) (hs : s.length = L) (ha : pointsTo a s) :
    (restoreStateRun a L (DriverNum.decr t.num_drivers, restoreStateEntry t)).2
      = (restoreStateEntry t).sendEach s.reverse ∧
    (restoreStateRun a L (DriverNum.decr t.num_drivers, restoreStateEntry t)).2.saveState
      = (L, s) := by
  have hn : t.num_drivers = L := ht.2.1
  have h0 : Tracks (restoreStateEntry t) L view := Tracks_congr _ _ rfl L view ht
  have e1 := restoreStateRun_sends a L (restoreStateEntry t) hL255
  have e2 : (List.range L).reverse.map a = s.reverse := by
    rw [List.map_reverse, ← hs, map_range_pointsTo a s ha]
  rw [e2] at e1
  rw [hn, e1]
  refine ⟨rfl, ?_⟩
  obtain ⟨h1, h2⟩ := Tracks_sendEach L hL hL255 s.reverse _ _ h0
  have hne : s.reverse ≠ [] := by
    intro h
    have h3 : s.reverse.length = 0 := by rw [h]; rfl
    rw [List.length_reverse] at h3
    omega
  rw [saveState_of_Tracks _ L _ hL255 h1 (h2 hne), List.reverse_reverse,
    List.take_append_of_le_length (by omega), List.take_of_length_le (by omega)]

end TinyA6281

/-- Claim C4 fails on the code: `restoreState` does not run to completion.
For every chain length, object and saved sequence, its loop is not left
within any number of iterations, so the method never returns. -/
theorem restoreState_never_returns (fuel : Nat) (t : TinyA6281) (a : Nat → A6281Packet) :
    TinyA6281.restoreState fuel t a = none := by
  simp [TinyA6281.restoreState, TinyA6281.restoreStateLoop_none]

set_option maxRecDepth 100000

/-- Claim C2 fails on the code: on a chain of length 2 with tracking enabled
and the saved sequence `s = [1, 2]` (memory after the array reading as 9),
`restoreState(s)` never returns, so no `saveState` follows it.  After two
iterations of its loop the tracker would save as `s`, but the loop goes on
and its third iteration, reading `a_state_vector[255]`, leaves `[9, 1]`. -/
theorem restoreState_saveState_diverges :
    (∀ fuel : Nat,
      (TinyA6281.restoreState fuel ((TinyA6281.construct 2 false).setStateTracking true true).2
        (TinyA6281.arrayPtr [⟨1⟩, ⟨2⟩] ⟨9⟩)).map TinyA6281.saveState = none) ∧
    (TinyA6281.restoreStateRun (TinyA6281.arrayPtr [⟨1⟩, ⟨2⟩] ⟨9⟩) 2
        (DriverNum.decr 2, TinyA6281.restoreStateEntry
          ((TinyA6281.construct 2 false).setStateTracking true true).2)).2.saveState
      = (2, [⟨1⟩, ⟨2⟩]) ∧
    (TinyA6281.restoreStateRun (TinyA6281.arrayPtr [⟨1⟩, ⟨2⟩] ⟨9⟩) 3
        (DriverNum.decr 2, TinyA6281.restoreStateEntry
          ((TinyA6281.construct 2 false).setStateTracking true true).2)).2.saveState
      = (2, [⟨9⟩, ⟨1⟩]) := by
  refine ⟨fun fuel => ?_, by decide, by decide⟩
  simp [TinyA6281.restoreState, TinyA6281.restoreStateLoop_none]

/-- Claim C3 fails on the code: on a chain of length 2 with auto-update on
and the saved sequence `[1, 2]` (memory after the array reading as 9),
`restoreState` never returns.  Its loop sends `s[1]`, `s[0]` and then carries
on with `a_state_vector[255]`, counter 254 next: after three iterations 3
packets (96 data bits) have gone out, the latch pin has not been written and
the auto-update flag is still off. -/
theorem restoreState_sends_on_without_latch :
    (∀ fuel : Nat,
      TinyA6281.restoreState fuel (TinyA6281.construct 2 true)
        (TinyA6281.arrayPtr [⟨1⟩, ⟨2⟩] ⟨9⟩) = none) ∧
    TinyA6281.restoreStateRun (TinyA6281.arrayPtr [⟨1⟩, ⟨2⟩] ⟨9⟩) 3
        (DriverNum.decr 2, TinyA6281.restoreStateEntry (TinyA6281.construct 2 true))
      = (254, (((TinyA6281.restoreStateEntry (TinyA6281.construct 2 true)).sendPacket ⟨2⟩ 1
          ).sendPacket ⟨1⟩ 1).sendPacket ⟨9⟩ 1) ∧
    (TinyA6281.restoreStateRun (TinyA6281.arrayPtr [⟨1⟩, ⟨2⟩] ⟨9⟩) 3
        (DriverNum.decr 2, TinyA6281.restoreStateEntry (TinyA6281.construct 2 true))).2.num_sent
      = 3 ∧
    (TinyA6281.writesTo TA6281_DEFAULT_DATAPIN
      (TinyA6281.restoreStateRun (TinyA6281.arrayPtr [⟨1⟩, ⟨2⟩] ⟨9⟩) 3
        (DriverNum.decr 2, TinyA6281.restoreStateEntry (TinyA6281.construct 2 true))).2.mcu).length
      = 96 ∧
    TinyA6281.writesTo TA6281_DEFAULT_LATCHPIN
      (TinyA6281.restoreStateRun (TinyA6281.arrayPtr [⟨1⟩, ⟨2⟩] ⟨9⟩) 3
        (DriverNum.decr 2, TinyA6281.restoreStateEntry (TinyA6281.construct 2 true))).2.mcu
      = [] ∧
    (TinyA6281.restoreStateRun (TinyA6281.arrayPtr [⟨1⟩, ⟨2⟩] ⟨9⟩) 3
        (DriverNum.decr 2, TinyA6281.restoreStateEntry
          (TinyA6281.construct 2 true))).2.auto_update_cycle
      = false := by
  refine ⟨fun fuel => ?_, rfl, by decide, by decide, by decide, by decide⟩
  simp [TinyA6281.restoreState, TinyA6281.restoreStateLoop_none]

/-! ## The wire: what the send methods write to the pins -/

namespace TinyA6281

theorem ext_tracker_controller (a b : TinyA6281) (h1 : a.tracker = b.tracker)
    (h2 : a.controller = b.controller) : a = b := by
  cases a
  cases b
  simp only [tracker, controller, Prod.mk.injEq] at h1 h2
  simp only [mk.injEq]
  tauto

theorem incr_iterate (n x : Nat) (hx : x < 256) :
    Nat.iterate DriverNum.incr n x = (x + n) % 256 := by
  induction n generalizing x with
  | zero => simp; omega
  | succ n ih =>
    have h1 : DriverNum.incr x < 256 := by
      simp only [DriverNum.incr, DriverNum.size]
      omega
    rw [Function.iterate_succ_apply, ih _ h1]
    simp only [DriverNum.incr, DriverNum.size]
    omega

theorem sendPacketBit_eq (p : A6281Packet) (i : Nat) (t : TinyA6281) :
    sendPacketBit p i t
      = { t with mcu := t.mcu ++ bitPulse t.pin_data t.pin_clock (decide (p.bit (32 - i) = 1)) } := by
  have hc : ((p.value >>> (32 - i)) &&& 1 != 0) = decide (p.bit (32 - i) = 1) := by
    simp only [A6281Packet.bit, Nat.shiftRight_eq_div_pow, Nat.and_one_is_mod]
    rcases Nat.mod_two_eq_zero_or_one (p.value / 2 ^ (32 - i)) with h | h <;> simp [h]
  unfold sendPacketBit
  simp only [hc]
  by_cases h : p.bit (32 - i) = 1 <;> simp [h, call, bitPulse, HIGH, LOW]

theorem sendPacketBits_eq (p : A6281Packet) (k : Nat) :
    ∀ (i : Nat) (t : TinyA6281),
      sendPacketBits p k i t
        = { t with mcu := t.mcu ++ (List.range k).flatMap (fun j =>
            bitPulse t.pin_data t.pin_clock (decide (p.bit (32 - (i + j)) = 1))) } := by
  induction k with
  | zero => intro i t; simp [sendPacketBits]
  | succ k ih =>
    intro i t
    rw [sendPacketBits, ih, sendPacketBit_eq, List.range_succ_eq_map]
    simp only [List.flatMap_cons, List.flatMap_map, Nat.add_zero, List.append_assoc,
      Function.comp_def, Nat.succ_eq_add_one]
    have e : ∀ j, i + 1 + j = i + (j + 1) := by intro j; omega
    simp only [e]

theorem sendPacketTimes_eq (p : A6281Packet) (n : Nat) :
    ∀ t : TinyA6281,
      sendPacketTimes p n t
        = { t with mcu := t.mcu ++
                     (List.replicate n (packetPulses t.pin_data t.pin_clock p)).flatten,
                   num_sent := Nat.iterate DriverNum.incr n t.num_sent } := by
  induction n with
  | zero => intro t; simp [sendPacketTimes]
  | succ n ih =>
    intro t
    have e : ∀ j, 32 - (1 + j) = 31 - j := by intro j; omega
    rw [sendPacketTimes, ih, sendPacketBits_eq]
    simp only [e, List.replicate_succ, List.flatten_cons, List.append_assoc,
      Function.iterate_succ_apply, packetPulses]

end TinyA6281

namespace TinyA6281

theorem controller_sendPacketTrack (p : A6281Packet) (t : TinyA6281) :
    (sendPacketTrack p t).controller = t.controller := by
  unfold sendPacketTrack
  cases t.state_vector with
  | none => rfl
  | some sv => cases t.tracking_state <;> rfl

theorem sendPacketTrack_with (p : A6281Packet) (t : TinyA6281) (m : List MCUCall) (s : Nat) :
    sendPacketTrack p { t with mcu := m, num_sent := s }
      = { sendPacketTrack p t with mcu := m, num_sent := s } := by
  unfold sendPacketTrack
  cases h1 : t.state_vector with
  | none => simp [h1]
  | some sv => cases h2 : t.tracking_state <;> simp [h1, h2]

theorem latch_eq (t : TinyA6281) : t.latch = { t with mcu := t.mcu ++ latchPulse t.pin_latch } := by
  simp [latch, call, latchPulse]

/-- The object after `endUpdate`: one latch pulse when `num_sent` is not 0,
nothing otherwise. -/
theorem endUpdate_eq (t : TinyA6281) :
    t.endUpdate = (t.num_sent,
      { t with mcu := t.mcu ++ (if t.num_sent = 0 then [] else latchPulse t.pin_latch) }) := by
  unfold endUpdate
  by_cases h : t.num_sent = 0
  · have hb : (t.num_sent != 0) = false := by simp [h]
    simp only [hb, if_pos h, List.append_nil, Bool.false_eq_true, if_false]
  · have hb : (t.num_sent != 0) = true := by simp [h]
    simp only [hb, if_neg h, if_true, latch_eq]

theorem controller_sendPacketTimes (p : A6281Packet) (n : Nat) (t : TinyA6281) :
    (sendPacketTimes p n t).controller
      = (t.using_nEnable, t.pin_data, t.pin_clock, t.pin_latch, t.pin_nEnable,
          Nat.iterate DriverNum.incr n t.num_sent, t.auto_update_cycle,
          t.mcu ++ (List.replicate n (packetPulses t.pin_data t.pin_clock p)).flatten) := by
  rw [sendPacketTimes_eq]
  rfl

theorem controller_endUpdate (t : TinyA6281) :
    t.endUpdate.2.controller
      = (t.using_nEnable, t.pin_data, t.pin_clock, t.pin_latch, t.pin_nEnable, t.num_sent,
          t.auto_update_cycle,
          t.mcu ++ (if t.num_sent = 0 then [] else latchPulse t.pin_latch)) := by
  rw [endUpdate_eq]
  rfl

/-- Closed form of `sendPacket` on the members outside the tracker:
`num_sent` is counted up once per repetition (from 0 when auto-update is on);
the platform calls are the packet pulses of every repetition, then one latch
pulse if auto-update is on and the count is not 0. -/
theorem controller_sendPacket (t : TinyA6281) (p : A6281Packet) (n : Nat) :
    (t.sendPacket p n).controller
      = (t.using_nEnable, t.pin_data, t.pin_clock, t.pin_latch, t.pin_nEnable,
          Nat.iterate DriverNum.incr n (if t.auto_update_cycle = true then 0 else t.num_sent),
          t.auto_update_cycle,
          t.mcu ++ (List.replicate n (packetPulses t.pin_data t.pin_clock p)).flatten ++
            (if t.auto_update_cycle = true ∧
                Nat.iterate DriverNum.incr n (if t.auto_update_cycle = true then 0 else t.num_sent) ≠ 0
             then latchPulse t.pin_latch else [])) := by
  by_cases h : t.auto_update_cycle = true
  · have cY : (sendPacketTrack p (sendPacketTimes p n t.beginUpdate)).controller
        = (t.using_nEnable, t.pin_data, t.pin_clock, t.pin_latch, t.pin_nEnable,
            Nat.iterate DriverNum.incr n 0, true,
            t.mcu ++ (List.replicate n (packetPulses t.pin_data t.pin_clock p)).flatten) := by
      rw [controller_sendPacketTrack, controller_sendPacketTimes, ← h]
      rfl
    have cY2 := cY
    simp only [controller, Prod.mk.injEq] at cY2
    obtain ⟨c1, c2, c3, c4, c5, c6, c7, c8⟩ := cY2
    unfold sendPacket
    simp only [h, if_true, c7, controller_endUpdate, c1, c2, c3, c4, c5, c6, c8, true_and]
    by_cases h0 : Nat.iterate DriverNum.incr n 0 = 0
    · simp [h0]
    · simp [h0]
  · have cY : (sendPacketTrack p (sendPacketTimes p n t)).controller
        = (t.using_nEnable, t.pin_data, t.pin_clock, t.pin_latch, t.pin_nEnable,
            Nat.iterate DriverNum.incr n t.num_sent, t.auto_update_cycle,
            t.mcu ++ (List.replicate n (packetPulses t.pin_data t.pin_clock p)).flatten) := by
      rw [controller_sendPacketTrack, controller_sendPacketTimes]
    have cY2 := cY
    simp only [controller, Prod.mk.injEq] at cY2
    obtain ⟨c1, c2, c3, c4, c5, c6, c7, c8⟩ := cY2
    have hf : t.auto_update_cycle = false := by simpa using h
    rw [hf] at c7 cY
    unfold sendPacket
    simp only [hf, Bool.false_eq_true, if_false, false_and, List.append_nil, c7, cY]

end TinyA6281

namespace TinyA6281

theorem controller_sendPacket_off (t : TinyA6281) (p : A6281Packet) (n : Nat)
    (h : t.auto_update_cycle = false) :
    (t.sendPacket p n).controller
      = (t.using_nEnable, t.pin_data, t.pin_clock, t.pin_latch, t.pin_nEnable,
          Nat.iterate DriverNum.incr n t.num_sent, false,
          t.mcu ++ (List.replicate n (packetPulses t.pin_data t.pin_clock p)).flatten) := by
  rw [controller_sendPacket]
  simp [h]

theorem controller_sendPacket_on (t : TinyA6281) (p : A6281Packet) (n : Nat)
    (h : t.auto_update_cycle = true) (hn : 1 ≤ n) (hn255 : n ≤ 255) :
    (t.sendPacket p n).controller
      = (t.using_nEnable, t.pin_data, t.pin_clock, t.pin_latch, t.pin_nEnable, n, true,
          t.mcu ++ (List.replicate n (packetPulses t.pin_data t.pin_clock p)).flatten ++
            latchPulse t.pin_latch) := by
  have e : Nat.iterate DriverNum.incr n 0 = n := by
    rw [incr_iterate n 0 (by omega)]
    omega
  have hne : n ≠ 0 := by omega
  rw [controller_sendPacket]
  simp [h, e, hne]

/-- The loop of `sendPackets` with auto-update off: every packet goes out in
turn, none is latched, and `num_sent` is counted up once per packet. -/
theorem controller_sendPacketsLoop (a : Nat → A6281Packet) (k : Nat) :
    ∀ (i : Nat) (t : TinyA6281), t.auto_update_cycle = false →
      (sendPacketsLoop a k i t).controller
        = (t.using_nEnable, t.pin_data, t.pin_clock, t.pin_latch, t.pin_nEnable,
            Nat.iterate DriverNum.incr k t.num_sent, false,
            t.mcu ++ (List.range k).flatMap (fun j =>
              packetPulses t.pin_data t.pin_clock (a (i + j)))) := by
  induction k with
  | zero =>
    intro i t h
    simp [sendPacketsLoop, controller, h]
  | succ k ih =>
    intro i t h
    have c := controller_sendPacket_off t (a i) 1 h
    simp only [controller, Prod.mk.injEq] at c
    obtain ⟨c1, c2, c3, c4, c5, c6, c7, c8⟩ := c
    have e : ∀ j, i + 1 + j = i + (j + 1) := by intro j; omega
    rw [sendPacketsLoop, ih (i + 1) _ c7, c1, c2, c3, c4, c5, c6, c8, List.range_succ_eq_map]
    simp [Function.comp_def, e, List.flatMap_map]

/-- The loop of `sendPackets` acts on the tracker members as the
state-tracking block run once for every packet in turn. -/
theorem tracker_sendPacketsLoop (a : Nat → A6281Packet) (k : Nat) :
    ∀ (i : Nat) (t : TinyA6281),
      (sendPacketsLoop a k i t).tracker
        = ((List.range k).foldl (fun x j => sendPacketTrack (a (i + j)) x) t).tracker := by
  induction k with
  | zero => intro i t; rfl
  | succ k ih =>
    intro i t
    have e : ∀ j, i + 1 + j = i + (j + 1) := by intro j; omega
    have hcongr : ∀ (l : List Nat) (x y : TinyA6281), x.tracker = y.tracker →
        (l.foldl (fun x j => sendPacketTrack (a (i + (j + 1))) x) x).tracker
          = (l.foldl (fun x j => sendPacketTrack (a (i + (j + 1))) x) y).tracker := by
      intro l
      induction l with
      | nil => intro x y hxy; exact hxy
      | cons j l ihl =>
        intro x y hxy
        exact ihl _ _ (tracker_sendPacketTrack_congr _ x y hxy)
    rw [sendPacketsLoop, ih, List.range_succ_eq_map, List.foldl_cons, List.foldl_map]
    simp only [e, Nat.succ_eq_add_one, Nat.add_zero]
    exact hcongr _ _ _ (tracker_sendPacket t (a i) 1)

theorem controller_sendPackets_off (t : TinyA6281) (a : Nat → A6281Packet) (k : Nat)
    (h : t.auto_update_cycle = false) :
    (t.sendPackets a k).controller
      = (t.using_nEnable, t.pin_data, t.pin_clock, t.pin_latch, t.pin_nEnable,
          Nat.iterate DriverNum.incr k t.num_sent, false,
          t.mcu ++ (List.range k).flatMap (fun j => packetPulses t.pin_data t.pin_clock (a j))) := by
  unfold sendPackets
  simp only [h, Bool.false_eq_true, if_false]
  rw [controller_sendPacketsLoop a k 0 t h]
  simp

theorem controller_sendPackets_on (t : TinyA6281) (a : Nat → A6281Packet) (k : Nat)
    (h : t.auto_update_cycle = true) :
    (t.sendPackets a k).controller
      = (t.using_nEnable, t.pin_data, t.pin_clock, t.pin_latch, t.pin_nEnable,
          Nat.iterate DriverNum.incr k 0, true,
          t.mcu ++ (List.range k).flatMap (fun j => packetPulses t.pin_data t.pin_clock (a j)) ++
            (if Nat.iterate DriverNum.incr k 0 = 0 then [] else latchPulse t.pin_latch)) := by
  have c := controller_sendPacketsLoop a k 0
    (({ t with auto_update_cycle := false } : TinyA6281).beginUpdate) rfl
  have c2 := c
  simp only [controller, Prod.mk.injEq] at c2
  obtain ⟨c1, c2, c3, c4, c5, c6, c7, c8⟩ := c2
  unfold sendPackets
  simp only [h, if_true]
  rw [endUpdate_eq]
  simp only [controller, c1, c2, c3, c4, c5, c6, c8]
  simp [beginUpdate]

theorem tracker_sendPackets (t : TinyA6281) (a : Nat → A6281Packet) (k : Nat) :
    (t.sendPackets a k).tracker
      = ((List.range k).foldl (fun x j => sendPacketTrack (a j) x) t).tracker := by
  have hcongr : ∀ (l : List Nat) (x y : TinyA6281), x.tracker = y.tracker →
      (l.foldl (fun x j => sendPacketTrack (a j) x) x).tracker
        = (l.foldl (fun x j => sendPacketTrack (a j) x) y).tracker := by
    intro l
    induction l with
    | nil => intro x y hxy; exact hxy
    | cons j l ihl =>
      intro x y hxy
      exact ihl _ _ (tracker_sendPacketTrack_congr _ x y hxy)
  have h0 := tracker_sendPacketsLoop a k 0
  simp only [Nat.zero_add] at h0
  unfold sendPackets
  by_cases h : t.auto_update_cycle = true
  · simp only [h, if_true]
    show (sendPacketsLoop a k 0 _).endUpdate.2.tracker = _
    rw [tracker_endUpdate, h0]
    exact hcongr _ _ _ rfl
  · simp only [h, if_false]
    exact h0 t

end TinyA6281

namespace TinyA6281

theorem writesTo_append (pin : Nat) (a b : List MCUCall) :
    writesTo pin (a ++ b) = writesTo pin a ++ writesTo pin b := by
  simp [writesTo]

theorem writesTo_bitPulse_data (d c : Nat) (b : Bool) (h : d ≠ c) :
    writesTo d (bitPulse d c b) = [b] := by
  simp [writesTo, bitPulse, h.symm]

theorem writesTo_bitPulse_clock (d c : Nat) (b : Bool) (h : d ≠ c) :
    writesTo c (bitPulse d c b) = [HIGH, LOW] := by
  simp [writesTo, bitPulse, h]

theorem writesTo_bitPulse_other (l d c : Nat) (b : Bool) (h1 : d ≠ l) (h2 : c ≠ l) :
    writesTo l (bitPulse d c b) = [] := by
  simp [writesTo, bitPulse, h1, h2]

theorem writesTo_latchPulse (l : Nat) : writesTo l (latchPulse l) = [HIGH, LOW] := by
  simp [writesTo, latchPulse]

theorem writesTo_latchPulse_other (q l : Nat) (h : l ≠ q) : writesTo q (latchPulse l) = [] := by
  simp [writesTo, latchPulse, h]

theorem writesTo_flatMap_bitPulse_data (d c : Nat) (h : d ≠ c) (f : Nat → Bool) (l : List Nat) :
    writesTo d (l.flatMap (fun k => bitPulse d c (f k))) = l.map f := by
  induction l with
  | nil => rfl
  | cons x l ih =>
    rw [List.flatMap_cons, writesTo_append, ih, writesTo_bitPulse_data d c _ h]
    rfl

theorem writesTo_flatMap_bitPulse_clock (d c : Nat) (h : d ≠ c) (f : Nat → Bool) (l : List Nat) :
    writesTo c (l.flatMap (fun k => bitPulse d c (f k)))
      = (List.replicate l.length [HIGH, LOW]).flatten := by
  induction l with
  | nil => rfl
  | cons x l ih =>
    rw [List.flatMap_cons, writesTo_append, ih, writesTo_bitPulse_clock d c _ h]
    rfl

theorem writesTo_flatMap_bitPulse_other (q d c : Nat) (h1 : d ≠ q) (h2 : c ≠ q) (f : Nat → Bool)
    (l : List Nat) : writesTo q (l.flatMap (fun k => bitPulse d c (f k))) = [] := by
  induction l with
  | nil => rfl
  | cons x l ih =>
    rw [List.flatMap_cons, writesTo_append, ih, writesTo_bitPulse_other q d c _ h1 h2]
    rfl

theorem writesTo_packetPulses_data (d c : Nat) (h : d ≠ c) (p : A6281Packet) :
    writesTo d (packetPulses d c p) = wireBits p :=
  writesTo_flatMap_bitPulse_data d c h _ _

theorem writesTo_packetPulses_clock (d c : Nat) (h : d ≠ c) (p : A6281Packet) :
    writesTo c (packetPulses d c p) = (List.replicate 32 [HIGH, LOW]).flatten := by
  rw [packetPulses, writesTo_flatMap_bitPulse_clock d c h, List.length_range]

theorem writesTo_packetPulses_other (q d c : Nat) (h1 : d ≠ q) (h2 : c ≠ q) (p : A6281Packet) :
    writesTo q (packetPulses d c p) = [] :=
  writesTo_flatMap_bitPulse_other q d c h1 h2 _ _

theorem writesTo_flatten_replicate (pin n : Nat) (x : List MCUCall) :
    writesTo pin (List.replicate n x).flatten = (List.replicate n (writesTo pin x)).flatten := by
  induction n with
  | zero => rfl
  | succ n ih => rw [List.replicate_succ, List.flatten_cons, writesTo_append, ih]; rfl

theorem writesTo_flatMap_packetPulses_other (q d c : Nat) (h1 : d ≠ q) (h2 : c ≠ q)
    (ps : List A6281Packet) : writesTo q (ps.flatMap (packetPulses d c)) = [] := by
  induction ps with
  | nil => rfl
  | cons x l ih =>
    rw [List.flatMap_cons, writesTo_append, ih, writesTo_packetPulses_other q d c h1 h2]
    rfl

theorem writesTo_flatMap_packetPulses_data (d c : Nat) (h : d ≠ c) (ps : List A6281Packet) :
    writesTo d (ps.flatMap (packetPulses d c)) = ps.flatMap wireBits := by
  induction ps with
  | nil => rfl
  | cons x l ih =>
    rw [List.flatMap_cons, writesTo_append, ih, writesTo_packetPulses_data d c h]
    rfl

theorem length_wireBits (p : A6281Packet) : (wireBits p).length = 32 := by
  simp [wireBits]

theorem length_flatten_replicate {α : Type} (n : Nat) (x : List α) :
    (List.replicate n x).flatten.length = n * x.length := by
  induction n with
  | zero => simp
  | succ n ih =>
    rw [List.replicate_succ, List.flatten_cons, List.length_append, ih]
    rw [Nat.succ_mul]
    omega

theorem length_flatMap_wireBits (ps : List A6281Packet) :
    (ps.flatMap wireBits).length = 32 * ps.length := by
  induction ps with
  | nil => rfl
  | cons x l ih =>
    rw [List.flatMap_cons, List.length_append, ih, length_wireBits, List.length_cons]
    omega

theorem flatMap_range_pointsTo {β : Type} (a : Nat → A6281Packet) (ps : List A6281Packet)
    (h : pointsTo a ps) (f : A6281Packet → List β) :
    (List.range ps.length).flatMap (fun j => f (a j)) = ps.flatMap f := by
  conv_rhs => rw [← map_range_pointsTo a ps h]
  rw [List.flatMap_map]

theorem pointsTo_arrayPtr (ps : List A6281Packet) (junk : A6281Packet) :
    pointsTo (arrayPtr ps junk) ps := by
  intro i h
  simp [arrayPtr, List.getD_eq_getElem?_getD, List.getElem?_eq_getElem h]

end TinyA6281

/-- Claim C13: for every packet `p` and repeat count `n >= 1` (a `uint8_t`),
`sendPacket(p, n)` makes `n` times the calls of one packet on the wire (for
each of the 32 bits, most significant first: one write of the data pin, then
clock high, delay, clock low, delay), followed by the latch pulse when
auto-update is on.  With distinct pins the data pin is written exactly
`32 * n` times, with the bits `31, 30, ..., 0` of `p` in every repetition,
and the clock pin gets `32 * n` pulses high-low. -/
theorem sendPacket_wire (t : TinyA6281) (p : A6281Packet) (n : Nat)
    (hn : 1 ≤ n) (hn255 : n ≤ 255)
    (hdc : t.pin_data ≠ t.pin_clock) (hdl : t.pin_data ≠ t.pin_latch)
    (hcl : t.pin_clock ≠ t.pin_latch) :
    ∃ calls : List MCUCall,
      (t.sendPacket p n).mcu = t.mcu ++ calls ∧
      calls = (List.replicate n (TinyA6281.packetPulses t.pin_data t.pin_clock p)).flatten ++
        (if t.auto_update_cycle = true then TinyA6281.latchPulse t.pin_latch else []) ∧
      TinyA6281.writesTo t.pin_data calls = (List.replicate n (TinyA6281.wireBits p)).flatten ∧
      (TinyA6281.writesTo t.pin_data calls).length = 32 * n ∧
      TinyA6281.writesTo t.pin_clock calls = (List.replicate (32 * n) [HIGH, LOW]).flatten ∧
      (∀ k, k < 32 → (TinyA6281.wireBits p)[k]? = some (decide (p.bit (31 - k) = 1))) := by
  have e : Nat.iterate DriverNum.incr n 0 = n := by
    rw [TinyA6281.incr_iterate n 0 (by omega)]
    omega
  have hd : TinyA6281.writesTo t.pin_data
      ((List.replicate n (TinyA6281.packetPulses t.pin_data t.pin_clock p)).flatten ++
        (if t.auto_update_cycle = true then TinyA6281.latchPulse t.pin_latch else []))
      = (List.replicate n (TinyA6281.wireBits p)).flatten := by
    rw [TinyA6281.writesTo_append, TinyA6281.writesTo_flatten_replicate,
      TinyA6281.writesTo_packetPulses_data _ _ hdc]
    split
    · rw [TinyA6281.writesTo_latchPulse_other _ _ hdl.symm, List.append_nil]
    · simp [TinyA6281.writesTo]
  refine ⟨_, ?_, rfl, hd, ?_, ?_, ?_⟩
  · have c := TinyA6281.controller_sendPacket t p n
    simp only [TinyA6281.controller, Prod.mk.injEq] at c
    rw [c.2.2.2.2.2.2.2, List.append_assoc]
    congr 2
    by_cases h : t.auto_update_cycle = true
    · have hne : n ≠ 0 := by omega
      simp [h, e, hne]
    · have hf : t.auto_update_cycle = false := by simpa using h
      simp [hf]
  · rw [hd, TinyA6281.length_flatten_replicate, TinyA6281.length_wireBits]
    omega
  · rw [TinyA6281.writesTo_append, TinyA6281.writesTo_flatten_replicate,
      TinyA6281.writesTo_packetPulses_clock _ _ hdc]
    have hl : TinyA6281.writesTo t.pin_clock
        (if t.auto_update_cycle = true then TinyA6281.latchPulse t.pin_latch else []) = [] := by
      split
      · exact TinyA6281.writesTo_latchPulse_other _ _ hcl.symm
      · rfl
    rw [hl, List.append_nil]
    clear hd hl e
    induction n with
    | zero => omega
    | succ m ih =>
      cases m with
      | zero => rfl
      | succ m =>
        have e2 : 32 * (m + 1 + 1) = 32 + 32 * (m + 1) := by omega
        rw [List.replicate_succ, List.flatten_cons, ih (by omega) (by omega), e2,
          List.replicate_add, List.flatten_append]
  · intro k hk
    simp [TinyA6281.wireBits, hk]

/-- Witness of C13: a fresh controller with the default pins (data 0, clock 2,
latch 3), the packet with raw value 5 sent twice. -/
theorem sendPacket_wire_witness :
    ∃ calls : List MCUCall,
      ((TinyA6281.construct 1 false).sendPacket ⟨5⟩ 2).mcu
        = (TinyA6281.construct 1 false).mcu ++ calls ∧
      (TinyA6281.writesTo (TinyA6281.construct 1 false).pin_data calls).length = 32 * 2 := by
  obtain ⟨calls, h1, _, _, h4, _⟩ := sendPacket_wire (TinyA6281.construct 1 false) ⟨5⟩ 2
    (by decide) (by decide) (by decide) (by decide) (by decide)
  exact ⟨calls, h1, h4⟩

/-- Claim C14: with auto-update enabled, `sendPackets` on a non-empty packet
sequence of length `k` (1 <= k <= 255) makes the calls of every packet on the
wire in turn and then exactly one latch pulse; with distinct pins the latch
pin is written high, low once only, after all `32 * k` data writes, and
`autoUpdate()` is true afterwards. -/
theorem sendPackets_latches_once (t : TinyA6281) (ps : List A6281Packet)
    (a : Nat → A6281Packet) (ha : TinyA6281.pointsTo a ps)
    (h : t.auto_update_cycle = true) (hk : 1 ≤ ps.length) (hk255 : ps.length ≤ 255)
    (hdc : t.pin_data ≠ t.pin_clock) (hdl : t.pin_data ≠ t.pin_latch)
    (hcl : t.pin_clock ≠ t.pin_latch) :
    (t.sendPackets a ps.length).mcu
      = t.mcu ++ ps.flatMap (TinyA6281.packetPulses t.pin_data t.pin_clock) ++
          TinyA6281.latchPulse t.pin_latch ∧
    TinyA6281.writesTo t.pin_latch
        (ps.flatMap (TinyA6281.packetPulses t.pin_data t.pin_clock) ++
          TinyA6281.latchPulse t.pin_latch) = [HIGH, LOW] ∧
    TinyA6281.writesTo t.pin_latch
        (ps.flatMap (TinyA6281.packetPulses t.pin_data t.pin_clock)) = [] ∧
    (TinyA6281.writesTo t.pin_data
        (ps.flatMap (TinyA6281.packetPulses t.pin_data t.pin_clock))).length = 32 * ps.length ∧
    (t.sendPackets a ps.length).autoUpdate = true := by
  have e : Nat.iterate DriverNum.incr ps.length 0 = ps.length := by
    rw [TinyA6281.incr_iterate ps.length 0 (by omega)]
    omega
  have hne : ps.length ≠ 0 := by omega
  have c := TinyA6281.controller_sendPackets_on t a ps.length h
  simp only [TinyA6281.controller, Prod.mk.injEq] at c
  obtain ⟨_, _, _, _, _, _, c7, c8⟩ := c
  have ho := TinyA6281.writesTo_flatMap_packetPulses_other t.pin_latch t.pin_data t.pin_clock
    hdl hcl ps
  refine ⟨?_, ?_, ho, ?_, c7⟩
  · rw [c8, e, if_neg hne, TinyA6281.flatMap_range_pointsTo a ps ha]
  · rw [TinyA6281.writesTo_append, ho, TinyA6281.writesTo_latchPulse]
    rfl
  · rw [TinyA6281.writesTo_flatMap_packetPulses_data _ _ hdc, TinyA6281.length_flatMap_wireBits]

/-- Witness of C14: three packets sent by `sendPackets` on a length-3 chain
with auto-update on and the default pins. -/
theorem sendPackets_latches_once_witness :
    ((TinyA6281.construct 3 true).sendPackets
        (TinyA6281.arrayPtr [⟨1⟩, ⟨2⟩, ⟨3⟩] ⟨0⟩) 3).mcu
      = (TinyA6281.construct 3 true).mcu ++
          [⟨1⟩, ⟨2⟩, ⟨3⟩].flatMap (TinyA6281.packetPulses (TinyA6281.construct 3 true).pin_data
            (TinyA6281.construct 3 true).pin_clock) ++
          TinyA6281.latchPulse (TinyA6281.construct 3 true).pin_latch :=
  (sendPackets_latches_once (TinyA6281.construct 3 true) [⟨1⟩, ⟨2⟩, ⟨3⟩]
    (TinyA6281.arrayPtr [⟨1⟩, ⟨2⟩, ⟨3⟩] ⟨0⟩) (TinyA6281.pointsTo_arrayPtr _ _) rfl
    (by decide) (by decide) (by decide) (by decide) (by decide)).1

namespace TinyA6281

theorem tracker_setAutoUpdate (t : TinyA6281) (b : Bool) :
    (t.setAutoUpdate b).tracker = t.tracker := rfl

/-- With auto-update on, `sendPacket` is `beginUpdate`, the transmission with
auto-update off, `endUpdate`. -/
theorem sendPacket_on_eq_bracket (t : TinyA6281) (p : A6281Packet) (n : Nat)
    (h : t.auto_update_cycle = true) :
    t.sendPacket p n
      = (((t.setAutoUpdate false).beginUpdate.sendPacket p n).endUpdate.2).setAutoUpdate true := by
  apply ext_tracker_controller
  · rw [tracker_setAutoUpdate, tracker_endUpdate, tracker_sendPacket, tracker_sendPacket]
    exact tracker_sendPacketTrack_congr p _ _ rfl
  · have c : ((t.setAutoUpdate false).beginUpdate.sendPacket p n).controller
        = (t.using_nEnable, t.pin_data, t.pin_clock, t.pin_latch, t.pin_nEnable,
            Nat.iterate DriverNum.incr n 0, false,
            t.mcu ++ (List.replicate n (packetPulses t.pin_data t.pin_clock p)).flatten) :=
      controller_sendPacket_off (t.setAutoUpdate false).beginUpdate p n rfl
    rw [controller_sendPacket]
    generalize (t.setAutoUpdate false).beginUpdate.sendPacket p n = y at c
    simp only [controller, Prod.mk.injEq] at c
    obtain ⟨c1, c2, c3, c4, c5, c6, c7, c8⟩ := c
    rw [endUpdate_eq]
    simp only [controller, setAutoUpdate, c1, c2, c3, c4, c5, c6, c8, h, if_true, true_and]
    by_cases h0 : Nat.iterate DriverNum.incr n 0 = 0 <;> simp [h0]

end TinyA6281

/-- Claim C15: with auto-update enabled, a call `sendPacket(p, n)` with
`n >= 1` (a `uint8_t`) equals `beginUpdate`, the transmission, `endUpdate`:
it makes the calls of the packet on the wire `n` times and then exactly one
latch pulse (with distinct pins the only write of the latch pin, high then
low, after the data bits); `sendPWMValues` and `sendCommand` are such calls
with `n = 1`. -/
theorem sendPacket_auto_latches (t : TinyA6281) (p : A6281Packet) (n : Nat)
    (h : t.auto_update_cycle = true) (hn : 1 ≤ n) (hn255 : n ≤ 255)
    (hdl : t.pin_data ≠ t.pin_latch) (hcl : t.pin_clock ≠ t.pin_latch) :
    t.sendPacket p n
      = (((t.setAutoUpdate false).beginUpdate.sendPacket p n).endUpdate.2).setAutoUpdate true ∧
    (t.sendPacket p n).mcu
      = t.mcu ++ (List.replicate n (TinyA6281.packetPulses t.pin_data t.pin_clock p)).flatten ++
          TinyA6281.latchPulse t.pin_latch ∧
    TinyA6281.writesTo t.pin_latch
        ((List.replicate n (TinyA6281.packetPulses t.pin_data t.pin_clock p)).flatten ++
          TinyA6281.latchPulse t.pin_latch) = [HIGH, LOW] ∧
    TinyA6281.writesTo t.pin_latch
        (List.replicate n (TinyA6281.packetPulses t.pin_data t.pin_clock p)).flatten = [] ∧
    (∀ pwm0 pwm1 pwm2, t.sendPWMValues pwm0 pwm1 pwm2
      = t.sendPacket (TinyA6281.pwmPacket pwm0 pwm1 pwm2) 1) ∧
    (∀ c0 c1 c2 m, t.sendCommand c0 c1 c2 m
      = t.sendPacket (TinyA6281.commandPacket c0 c1 c2 m) 1) := by
  have c := TinyA6281.controller_sendPacket_on t p n h hn hn255
  simp only [TinyA6281.controller, Prod.mk.injEq] at c
  have ho : TinyA6281.writesTo t.pin_latch
      (List.replicate n (TinyA6281.packetPulses t.pin_data t.pin_clock p)).flatten = [] := by
    rw [TinyA6281.writesTo_flatten_replicate,
      TinyA6281.writesTo_packetPulses_other _ _ _ hdl hcl]
    simp
  refine ⟨TinyA6281.sendPacket_on_eq_bracket t p n h, c.2.2.2.2.2.2.2, ?_, ho,
    fun _ _ _ => rfl, fun _ _ _ _ => rfl⟩
  rw [TinyA6281.writesTo_append, ho, TinyA6281.writesTo_latchPulse]
  rfl

/-- Witness of C15: a controller with auto-update on and the default pins
sends the packet with raw value 5 once. -/
theorem sendPacket_auto_latches_witness :
    ((TinyA6281.construct 1 true).sendPacket ⟨5⟩ 1).mcu
      = (TinyA6281.construct 1 true).mcu ++
          (List.replicate 1 (TinyA6281.packetPulses (TinyA6281.construct 1 true).pin_data
            (TinyA6281.construct 1 true).pin_clock ⟨5⟩)).flatten ++
          TinyA6281.latchPulse (TinyA6281.construct 1 true).pin_latch :=
  (sendPacket_auto_latches (TinyA6281.construct 1 true) ⟨5⟩ 1 rfl (by decide) (by decide)
    (by decide) (by decide)).2.1

/-- Claim C17: `endUpdate` returns `num_sent` and leaves it unchanged; it
makes exactly one latch pulse (latch pin high, delay, latch pin low) when
`num_sent` is not 0 and no platform call at all when it is 0, and changes
nothing else; `beginUpdate` sets `num_sent` to 0 without any platform call. -/
theorem endUpdate_latches (t : TinyA6281) :
    t.endUpdate.1 = t.num_sent ∧
    t.endUpdate.2.num_sent = t.num_sent ∧
    t.endUpdate.2.mcu = t.mcu ++
      (if t.num_sent = 0 then []
       else [.digitalOut t.pin_latch HIGH, .delayUs TA6281_LATCH_DELAY_US,
             .digitalOut t.pin_latch LOW]) ∧
    t.endUpdate.2 = { t with mcu := t.endUpdate.2.mcu } ∧
    TinyA6281.writesTo t.pin_latch
      (if t.num_sent = 0 then []
       else [.digitalOut t.pin_latch HIGH, .delayUs TA6281_LATCH_DELAY_US,
             .digitalOut t.pin_latch LOW]) = (if t.num_sent = 0 then [] else [HIGH, LOW]) ∧
    t.beginUpdate.num_sent = 0 ∧
    t.beginUpdate.mcu = t.mcu := by
  rw [TinyA6281.endUpdate_eq]
  refine ⟨rfl, rfl, rfl, rfl, ?_, rfl, rfl⟩
  split
  · rfl
  · simp [TinyA6281.writesTo]

/-! ## Sequences of send calls inside an update cycle -/

namespace TinyA6281

theorem num_drivers_sendPacketTrack (p : A6281Packet) (t : TinyA6281) :
    (sendPacketTrack p t).num_drivers = t.num_drivers := by
  unfold sendPacketTrack
  cases t.state_vector with
  | none => rfl
  | some sv => cases t.tracking_state <;> rfl

theorem num_drivers_of_tracker (a b : TinyA6281) (h : a.tracker = b.tracker) :
    a.num_drivers = b.num_drivers := by
  simp only [tracker, Prod.mk.injEq] at h
  exact h.2.2.2

theorem num_drivers_sendPacket (t : TinyA6281) (p : A6281Packet) (n : Nat) :
    (t.sendPacket p n).num_drivers = t.num_drivers := by
  rw [num_drivers_of_tracker _ _ (tracker_sendPacket t p n), num_drivers_sendPacketTrack]

theorem num_drivers_foldl_track (f : Nat → A6281Packet) (l : List Nat) :
    ∀ t : TinyA6281,
      (l.foldl (fun x j => sendPacketTrack (f j) x) t).num_drivers = t.num_drivers := by
  induction l with
  | nil => intro t; rfl
  | cons j l ih => intro t; rw [List.foldl_cons, ih, num_drivers_sendPacketTrack]

theorem num_drivers_sendPackets (t : TinyA6281) (a : Nat → A6281Packet) (k : Nat) :
    (t.sendPackets a k).num_drivers = t.num_drivers := by
  rw [num_drivers_of_tracker _ _ (tracker_sendPackets t a k), num_drivers_foldl_track]

theorem writesTo_replicate_packetPulses_other (q d c n : Nat) (h1 : d ≠ q) (h2 : c ≠ q)
    (p : A6281Packet) : writesTo q (List.replicate n (packetPulses d c p)).flatten = [] := by
  rw [writesTo_flatten_replicate, writesTo_packetPulses_other q d c h1 h2]
  simp

/-- A send call with auto-update off: `num_sent` is counted up once per
packet, auto-update stays off, and the platform calls it makes write the data
and clock pins only. -/
theorem Op.run_send (op : Op) (t : TinyA6281) (h : t.auto_update_cycle = false)
    (hs : op.isSend = true) :
    ∃ calls : List MCUCall,
      (op.run t).controller
        = (t.using_nEnable, t.pin_data, t.pin_clock, t.pin_latch, t.pin_nEnable,
            Nat.iterate DriverNum.incr (op.packetCount t.num_drivers) t.num_sent, false,
            t.mcu ++ calls) ∧
      (op.run t).num_drivers = t.num_drivers ∧
      (∀ q, t.pin_data ≠ q → t.pin_clock ≠ q → writesTo q calls = []) := by
  cases op with
  | setStateTracking s m => simp [Op.isSend] at hs
  | setAutoUpdate s => simp [Op.isSend] at hs
  | beginUpdate => simp [Op.isSend] at hs
  | endUpdate => simp [Op.isSend] at hs
  | sendPacket p n =>
    exact ⟨_, controller_sendPacket_off t p n h, num_drivers_sendPacket t p n,
      fun q h1 h2 => writesTo_replicate_packetPulses_other q _ _ n h1 h2 p⟩
  | sendPackets ps =>
    refine ⟨ps.flatMap (packetPulses t.pin_data t.pin_clock), ?_, num_drivers_sendPackets t _ _,
      fun q h1 h2 => writesTo_flatMap_packetPulses_other q _ _ h1 h2 ps⟩
    rw [← flatMap_range_pointsTo (arrayPtr ps ⟨0⟩) ps (pointsTo_arrayPtr ps ⟨0⟩)]
    exact controller_sendPackets_off t (arrayPtr ps ⟨0⟩) ps.length h
  | sendPacketToAll p =>
    exact ⟨_, controller_sendPacket_off t p t.num_drivers h,
      num_drivers_sendPacket t p t.num_drivers,
      fun q h1 h2 => writesTo_replicate_packetPulses_other q _ _ _ h1 h2 p⟩
  | sendPWMValues a b c =>
    exact ⟨_, controller_sendPacket_off t (pwmPacket a b c) 1 h,
      num_drivers_sendPacket t (pwmPacket a b c) 1,
      fun q h1 h2 => writesTo_replicate_packetPulses_other q _ _ 1 h1 h2 _⟩
  | sendCommand a b c m =>
    exact ⟨_, controller_sendPacket_off t (commandPacket a b c m) 1 h,
      num_drivers_sendPacket t (commandPacket a b c m) 1,
      fun q h1 h2 => writesTo_replicate_packetPulses_other q _ _ 1 h1 h2 _⟩

/-- Any sequence of send calls with auto-update off: `num_sent` is counted up
once per packet sent, and the platform calls write the data and clock pins
only. -/
theorem runOps_sends (ops : List Op) :
    ∀ t : TinyA6281, t.auto_update_cycle = false → (∀ op ∈ ops, op.isSend = true) →
      ∃ calls : List MCUCall,
        (runOps t ops).controller
          = (t.using_nEnable, t.pin_data, t.pin_clock, t.pin_latch, t.pin_nEnable,
              Nat.iterate DriverNum.incr (packetsSent t.num_drivers ops) t.num_sent, false,
              t.mcu ++ calls) ∧
        (runOps t ops).num_drivers = t.num_drivers ∧
        (∀ q, t.pin_data ≠ q → t.pin_clock ≠ q → writesTo q calls = []) := by
  induction ops with
  | nil =>
    intro t h _
    refine ⟨[], ?_, rfl, fun _ _ _ => rfl⟩
    simp [runOps, controller, packetsSent, h]
  | cons op ops ih =>
    intro t h hs
    obtain ⟨calls1, c, hn, hw⟩ := Op.run_send op t h (hs op (List.mem_cons_self _ _))
    have c0 := c
    simp only [controller, Prod.mk.injEq] at c0
    obtain ⟨c1, c2, c3, c4, c5, c6, c7, c8⟩ := c0
    obtain ⟨calls2, d, hn2, hw2⟩ := ih (op.run t) c7
      (fun o ho => hs o (List.mem_cons_of_mem _ ho))
    refine ⟨calls1 ++ calls2, ?_, ?_, ?_⟩
    · have e : runOps t (op :: ops) = runOps (op.run t) ops := rfl
      have e2 : packetsSent t.num_drivers (op :: ops)
          = packetsSent t.num_drivers ops + op.packetCount t.num_drivers := by
        simp [packetsSent]
        omega
      rw [e, d, c1, c2, c3, c4, c5, c6, c8, hn, e2, Function.iterate_add_apply,
        List.append_assoc]
    · exact hn2.trans hn
    · intro q h1 h2
      rw [writesTo_append, hw q h1 h2, hw2 q (c2 ▸ h1) (c3 ▸ h2)]
      rfl

end TinyA6281

/-- Claim C16 as stated fails: after `beginUpdate`, `sendPacket(p, 255)` and
`sendPacket(p, 1)` with auto-update off, 256 packets have been sent but
`endUpdate` returns 0 (the 8-bit `num_sent` has wrapped round). -/
theorem endUpdate_count_wraps :
    ((TinyA6281.runOps (TinyA6281.construct 1 false).beginUpdate
        [.sendPacket ⟨5⟩ 255, .sendPacket ⟨5⟩ 1]).endUpdate).1 = 0 ∧
    TinyA6281.packetsSent (TinyA6281.construct 1 false).num_drivers
        [.sendPacket ⟨5⟩ 255, .sendPacket ⟨5⟩ 1] = 256 := by
  obtain ⟨calls, c, _, _⟩ := TinyA6281.runOps_sends [.sendPacket ⟨5⟩ 255, .sendPacket ⟨5⟩ 1]
    (TinyA6281.construct 1 false).beginUpdate rfl (by decide)
  simp only [TinyA6281.controller, Prod.mk.injEq] at c
  have e : TinyA6281.packetsSent (TinyA6281.construct 1 false).num_drivers
      [.sendPacket ⟨5⟩ 255, .sendPacket ⟨5⟩ 1] = 256 := by decide
  refine ⟨?_, e⟩
  rw [TinyA6281.endUpdate_eq, c.2.2.2.2.2.1]
  have e' : TinyA6281.packetsSent (TinyA6281.construct 1 false).beginUpdate.num_drivers
      [.sendPacket ⟨5⟩ 255, .sendPacket ⟨5⟩ 1] = 256 := e
  rw [e', TinyA6281.incr_iterate 256 _ (by decide)]
  rfl

/-- Claim C16, amended: with auto-update off, for every sequence of send
calls made after a `beginUpdate`, `endUpdate` returns the number of packets
sent since that `beginUpdate` reduced modulo 2^8 (every repetition of a
repeated send counting as one packet): the number itself when at most 255
packets were sent. -/
theorem endUpdate_count_mod (t : TinyA6281) (ops : List TinyA6281.Op)
    (h : t.auto_update_cycle = false) (hs : ∀ op ∈ ops, op.isSend = true) :
    ((TinyA6281.runOps t.beginUpdate ops).endUpdate).1
      = TinyA6281.packetsSent t.num_drivers ops % 256 ∧
    (TinyA6281.packetsSent t.num_drivers ops ≤ 255 →
      ((TinyA6281.runOps t.beginUpdate ops).endUpdate).1
        = TinyA6281.packetsSent t.num_drivers ops) := by
  obtain ⟨calls, c, _, _⟩ := TinyA6281.runOps_sends ops t.beginUpdate h hs
  simp only [TinyA6281.controller, Prod.mk.injEq] at c
  have e : ((TinyA6281.runOps t.beginUpdate ops).endUpdate).1
      = TinyA6281.packetsSent t.num_drivers ops % 256 := by
    rw [TinyA6281.endUpdate_eq, c.2.2.2.2.2.1]
    have h0 : t.beginUpdate.num_sent = 0 := rfl
    have h1 : t.beginUpdate.num_drivers = t.num_drivers := rfl
    rw [h0, h1, TinyA6281.incr_iterate _ 0 (by decide), Nat.zero_add]
  refine ⟨e, fun hle => ?_⟩
  rw [e]
  omega

/-- Witness of C16 (amended): on a chain of length 3, `sendPacket(p, 2)`,
`sendPackets` of two packets and `sendPacketToAll` send 7 packets. -/
theorem endUpdate_count_mod_witness :
    ((TinyA6281.runOps (TinyA6281.construct 3 false).beginUpdate
        [.sendPacket ⟨1⟩ 2, .sendPackets [⟨1⟩, ⟨2⟩], .sendPacketToAll ⟨3⟩]).endUpdate).1
      = 7 % 256 :=
  (endUpdate_count_mod (TinyA6281.construct 3 false)
    [.sendPacket ⟨1⟩ 2, .sendPackets [⟨1⟩, ⟨2⟩], .sendPacketToAll ⟨3⟩] rfl (by decide)).1

/-- Claim C18: with auto-update off (and the latch pin distinct from the data
and clock pins), no sequence of calls of the send methods writes the latch
pin; the packets sent after `beginUpdate` only count up `num_sent` (modulo
2^8), and the first write of the latch pin is the latch pulse of `endUpdate`,
made when the count is not 0. -/
theorem sends_do_not_latch (t : TinyA6281) (ops : List TinyA6281.Op)
    (h : t.auto_update_cycle = false) (hs : ∀ op ∈ ops, op.isSend = true)
    (hdl : t.pin_data ≠ t.pin_latch) (hcl : t.pin_clock ≠ t.pin_latch) :
    TinyA6281.writesTo t.pin_latch (TinyA6281.runOps t ops).mcu
      = TinyA6281.writesTo t.pin_latch t.mcu ∧
    (TinyA6281.runOps t ops).pin_latch = t.pin_latch ∧
    (TinyA6281.runOps t.beginUpdate ops).num_sent
      = TinyA6281.packetsSent t.num_drivers ops % 256 ∧
    TinyA6281.writesTo t.pin_latch (TinyA6281.runOps t ops).endUpdate.2.mcu
      = TinyA6281.writesTo t.pin_latch t.mcu ++
          (if (TinyA6281.runOps t ops).num_sent = 0 then [] else [HIGH, LOW]) := by
  obtain ⟨calls, c, _, hw⟩ := TinyA6281.runOps_sends ops t h hs
  simp only [TinyA6281.controller, Prod.mk.injEq] at c
  obtain ⟨_, _, _, c4, _, _, _, c8⟩ := c
  have e1 : TinyA6281.writesTo t.pin_latch (TinyA6281.runOps t ops).mcu
      = TinyA6281.writesTo t.pin_latch t.mcu := by
    rw [c8, TinyA6281.writesTo_append, hw _ hdl hcl, List.append_nil]
  refine ⟨e1, c4, ?_, ?_⟩
  · obtain ⟨calls', c', _, _⟩ := TinyA6281.runOps_sends ops t.beginUpdate h hs
    simp only [TinyA6281.controller, Prod.mk.injEq] at c'
    rw [c'.2.2.2.2.2.1]
    have h0 : t.beginUpdate.num_sent = 0 := rfl
    have h1 : t.beginUpdate.num_drivers = t.num_drivers := rfl
    rw [h0, h1, TinyA6281.incr_iterate _ 0 (by decide), Nat.zero_add]
  · rw [TinyA6281.endUpdate_eq]
    show TinyA6281.writesTo t.pin_latch ((TinyA6281.runOps t ops).mcu ++ _) = _
    rw [TinyA6281.writesTo_append, e1, c4]
    split
    · rfl
    · rw [TinyA6281.writesTo_latchPulse]

/-- Witness of C18: three send calls on a fresh controller with auto-update
off and the default pins leave the latch pin unwritten. -/
theorem sends_do_not_latch_witness :
    TinyA6281.writesTo (TinyA6281.construct 3 false).pin_latch
      (TinyA6281.runOps (TinyA6281.construct 3 false)
        [.sendPacket ⟨1⟩ 2, .sendPackets [⟨1⟩, ⟨2⟩], .sendPacketToAll ⟨3⟩]).mcu
      = TinyA6281.writesTo (TinyA6281.construct 3 false).pin_latch
          (TinyA6281.construct 3 false).mcu :=
  (sends_do_not_latch (TinyA6281.construct 3 false)
    [.sendPacket ⟨1⟩ 2, .sendPackets [⟨1⟩, ⟨2⟩], .sendPacketToAll ⟨3⟩] rfl (by decide)
    (by decide) (by decide)).1

/-! ## `getState` -/

/-- Claim C11 as stated fails: on a chain of length 1, after
`setStateTracking(true)`, one `sendPacket` and `setStateTracking(false)`,
state tracking is off but `getState(0)` is not `NULL`: it addresses slot 0,
which holds the packet sent. -/
theorem getState_after_tracking_off :
    (((((TinyA6281.construct 1 false).setStateTracking true true).2.sendPacket ⟨5⟩ 1
        ).setStateTracking false true).2).stateTracking = false ∧
    (((((TinyA6281.construct 1 false).setStateTracking true true).2.sendPacket ⟨5⟩ 1
        ).setStateTracking false true).2).getState 0 = some 0 ∧
    (((((TinyA6281.construct 1 false).setStateTracking true true).2.sendPacket ⟨5⟩ 1
        ).setStateTracking false true).2).getStateValue 0 = some ⟨5⟩ := by
  decide

namespace TinyA6281

theorem sendPacketTrack_of_none (p : A6281Packet) (t : TinyA6281) (h : t.state_vector = none) :
    sendPacketTrack p t = t := by
  simp [sendPacketTrack, h]

theorem foldl_track_of_none (f : Nat → A6281Packet) (l : List Nat) (t : TinyA6281)
    (h : t.state_vector = none) :
    l.foldl (fun x j => sendPacketTrack (f j) x) t = t := by
  induction l with
  | nil => rfl
  | cons j l ih => rw [List.foldl_cons, sendPacketTrack_of_none _ t h, ih]

theorem state_vector_of_tracker (a b : TinyA6281) (h : a.tracker = b.tracker) :
    a.state_vector = b.state_vector := by
  simp only [tracker, Prod.mk.injEq] at h
  exact h.2.1

theorem state_vector_sendPacket_none (t : TinyA6281) (p : A6281Packet) (n : Nat)
    (h : t.state_vector = none) : (t.sendPacket p n).state_vector = none := by
  rw [state_vector_of_tracker _ _ (tracker_sendPacket t p n), sendPacketTrack_of_none p t h, h]

/-- Without a `setStateTracking(true)` call no operation allocates the state
vector. -/
theorem Op.run_state_vector_none (op : Op) (t : TinyA6281) (h : t.state_vector = none)
    (hop : ∀ m, op ≠ .setStateTracking true m) : (op.run t).state_vector = none := by
  cases op with
  | setStateTracking s m =>
    cases s with
    | true => exact absurd rfl (hop m)
    | false => simpa [Op.run, setStateTracking] using h
  | setAutoUpdate s => exact h
  | beginUpdate => exact h
  | endUpdate =>
    show t.endUpdate.2.state_vector = none
    rw [state_vector_of_tracker _ _ (tracker_endUpdate t), h]
  | sendPacket p n => exact state_vector_sendPacket_none t p n h
  | sendPackets ps =>
    show (t.sendPackets _ _).state_vector = none
    rw [state_vector_of_tracker _ _ (tracker_sendPackets t _ _), foldl_track_of_none _ _ t h, h]
  | sendPacketToAll p => exact state_vector_sendPacket_none t p _ h
  | sendPWMValues a b c => exact state_vector_sendPacket_none t _ 1 h
  | sendCommand a b c m => exact state_vector_sendPacket_none t _ 1 h

theorem runOps_state_vector_none (ops : List Op) :
    ∀ t : TinyA6281, t.state_vector = none →
      (∀ op ∈ ops, ∀ m, op ≠ .setStateTracking true m) →
      (runOps t ops).state_vector = none := by
  induction ops with
  | nil => intro t h _; exact h
  | cons op ops ih =>
    intro t h hops
    exact ih (op.run t)
      (Op.run_state_vector_none op t h (hops op (List.mem_cons_self _ _)))
      (fun o ho => hops o (List.mem_cons_of_mem _ ho))

end TinyA6281

/-- Claim C11, amended: `getState(index)` returns `NULL` exactly when
`index >= chainLength` or the state vector is not allocated; so it returns
`NULL` for every index as long as no `setStateTracking(true)` has been
called, whatever was sent, while on an allocated buffer it returns the
address of slot `index` for `index < chainLength`, also when tracking has
been switched off again. -/
theorem getState_null_iff (t : TinyA6281) (index : Nat) (L : Nat) (autoUpdates : Bool)
    (ops : List TinyA6281.Op)
    (hops : ∀ op ∈ ops, ∀ m, op ≠ TinyA6281.Op.setStateTracking true m) :
    (t.getState index = none ↔ (index ≥ t.num_drivers ∨ t.state_vector = none)) ∧
    (index < t.num_drivers → t.state_vector ≠ none → t.getState index = some index) ∧
    (TinyA6281.runOps (TinyA6281.construct L autoUpdates) ops).getState index = none := by
  have key : ∀ u : TinyA6281,
      u.getState index = none ↔ (index ≥ u.num_drivers ∨ u.state_vector = none) := by
    intro u
    unfold TinyA6281.getState
    cases hsv : u.state_vector with
    | none => simp
    | some sv =>
      by_cases hi : index ≥ u.num_drivers
      · simp [hi]
      · simp [hi]
  refine ⟨key t, ?_, ?_⟩
  · intro hi hsv
    unfold TinyA6281.getState
    cases hsv2 : t.state_vector with
    | none => exact absurd hsv2 hsv
    | some sv =>
      have : ¬ (index ≥ t.num_drivers) := by omega
      simp [this]
  · rw [key]
    exact Or.inr (TinyA6281.runOps_state_vector_none ops _ rfl hops)

/-- Witness of C11 (amended): sends and `setStateTracking(false)` on a chain
of length 2 that never had tracking enabled. -/
theorem getState_null_iff_witness :
    (TinyA6281.runOps (TinyA6281.construct 2 true)
      [.sendPacket ⟨5⟩ 1, .setStateTracking false true, .sendPacketToAll ⟨6⟩]).getState 0
      = none :=
  (getState_null_iff (TinyA6281.construct 2 true) 0 2 true
    [.sendPacket ⟨5⟩ 1, .setStateTracking false true, .sendPacketToAll ⟨6⟩]
    (by decide)).2.2

/-- Claim C12 fails on the code: on a chain of length 2 with tracking on,
after sending the packets 1, 2, 3 the head index is 1 and `saveState` writes
`[3, 2]` (chip 0 holds packet 3), but `getState(0)` addresses slot 0, which
holds packet 2, and `getState(1)` addresses slot 1, which holds packet 3:
the head index is not applied. -/
theorem getState_ignores_head :
    ((((TinyA6281.construct 2 false).setStateTracking true true).2).sendEach
        [⟨1⟩, ⟨2⟩, ⟨3⟩]).state_vector_head_idx = 1 ∧
    ((((TinyA6281.construct 2 false).setStateTracking true true).2).sendEach
        [⟨1⟩, ⟨2⟩, ⟨3⟩]).saveState = (2, [⟨3⟩, ⟨2⟩]) ∧
    ((((TinyA6281.construct 2 false).setStateTracking true true).2).sendEach
        [⟨1⟩, ⟨2⟩, ⟨3⟩]).getState 0 = some 0 ∧
    ((((TinyA6281.construct 2 false).setStateTracking true true).2).sendEach
        [⟨1⟩, ⟨2⟩, ⟨3⟩]).getStateValue 0 = some ⟨2⟩ ∧
    ((((TinyA6281.construct 2 false).setStateTracking true true).2).sendEach
        [⟨1⟩, ⟨2⟩, ⟨3⟩]).getStateValue 1 = some ⟨3⟩ := by
  decide

/-! ## `saveState` and `setStateTracking` over sequences of operations -/

namespace TinyA6281

theorem BufferInv_congr (a b : TinyA6281) (h : a.tracker = b.tracker) (L r : Nat)
    (hb : BufferInv b L r) : BufferInv a L r := by
  simp only [tracker, Prod.mk.injEq] at h
  obtain ⟨_, h2, h3, h4⟩ := h
  unfold BufferInv at *
  rw [h2, h3, h4]
  exact hb

theorem tracking_state_sendPacketTrack (p : A6281Packet) (t : TinyA6281) :
    (sendPacketTrack p t).tracking_state = t.tracking_state := by
  unfold sendPacketTrack
  cases t.state_vector with
  | none => rfl
  | some sv => cases h : t.tracking_state <;> simp [h]

theorem isSome_sendPacketTrack (p : A6281Packet) (t : TinyA6281) :
    (sendPacketTrack p t).state_vector.isSome = t.state_vector.isSome := by
  unfold sendPacketTrack
  cases h1 : t.state_vector with
  | none => simp [h1]
  | some sv => cases h : t.tracking_state <;> simp [h, h1]

/-- The state-tracking block of `sendPacket` stores once when tracking is on
and the state vector is allocated, and then the head index is in bounds. -/
theorem BufferInv_sendPacketTrack (p : A6281Packet) (t : TinyA6281) (L r : Nat) (hL : 1 ≤ L)
    (h : BufferInv t L r) :
    BufferInv (sendPacketTrack p t) L
      (r + (if (t.tracking_state && t.state_vector.isSome) = true then 1 else 0)) := by
  obtain ⟨hn, hcase⟩ := h
  rcases hcase with ⟨hnone, hr⟩ | ⟨sv, hsv, hlen, hhead⟩
  · rw [sendPacketTrack_of_none p t hnone]
    simp only [hnone, Option.isSome_none, Bool.and_false, Bool.false_eq_true, if_false,
      Nat.add_zero]
    exact ⟨hn, Or.inl ⟨hnone, hr⟩⟩
  · cases ht : t.tracking_state with
    | false =>
      have e : sendPacketTrack p t = t := by simp [sendPacketTrack, hsv, ht]
      rw [e]
      simp only [Bool.false_and, Bool.false_eq_true, if_false, Nat.add_zero]
      exact ⟨hn, Or.inr ⟨sv, hsv, hlen, hhead⟩⟩
    | true =>
      have hle : t.state_vector_head_idx ≤ L := by
        rcases hhead with ⟨_, h1⟩ | ⟨_, h1⟩ <;> omega
      have key : ∃ head, head < L ∧ sendPacketTrack p t =
          { t with state_vector_head_idx := head, state_vector := some (sv.set head p) } := by
        by_cases h0 : t.state_vector_head_idx = 0
        · refine ⟨DriverNum.decr t.num_drivers, ?_, by simp [sendPacketTrack, hsv, ht, h0]⟩
          simp only [DriverNum.decr, DriverNum.size, hn]
          omega
        · exact ⟨t.state_vector_head_idx - 1, by omega,
            by simp [sendPacketTrack, hsv, ht, h0]⟩
      obtain ⟨head, hlt, e⟩ := key
      rw [e]
      simp only [hsv, Option.isSome_some, Bool.and_self, if_true]
      exact ⟨hn, Or.inr ⟨sv.set head p, rfl, by simp [hlen], Or.inr ⟨by omega, hlt⟩⟩⟩

theorem BufferInv_foldl_track (f : Nat → A6281Packet) (L : Nat) (hL : 1 ≤ L) (l : List Nat) :
    ∀ (t : TinyA6281) (r : Nat), BufferInv t L r →
      BufferInv (l.foldl (fun x j => sendPacketTrack (f j) x) t) L
        (r + (if (t.tracking_state && t.state_vector.isSome) = true then l.length else 0)) := by
  induction l with
  | nil => intro t r h; simpa using h
  | cons j l ih =>
    intro t r h
    have h1 := ih _ _ (BufferInv_sendPacketTrack (f j) t L r hL h)
    rw [tracking_state_sendPacketTrack, isSome_sendPacketTrack] at h1
    rw [List.foldl_cons]
    by_cases c : (t.tracking_state && t.state_vector.isSome) = true
    · simp only [c, if_true, List.length_cons] at h1 ⊢
      have e : r + (l.length + 1) = r + 1 + l.length := by omega
      rw [e]
      exact h1
    · simp only [c, if_false, Nat.add_zero] at h1 ⊢
      exact h1

theorem BufferInv_sendPacket (p : A6281Packet) (n : Nat) (t : TinyA6281) (L r : Nat)
    (hL : 1 ≤ L) (h : BufferInv t L r) :
    BufferInv (t.sendPacket p n) L
      (r + (if (t.tracking_state && t.state_vector.isSome) = true then 1 else 0)) :=
  BufferInv_congr _ _ (tracker_sendPacket t p n) L _ (BufferInv_sendPacketTrack p t L r hL h)

theorem setStateTracking_of_some (t : TinyA6281) (sv : List A6281Packet) (s m : Bool)
    (h : t.state_vector = some sv) :
    t.setStateTracking s m = (s, { t with tracking_state := s }) := by
  simp [setStateTracking, h]

theorem setStateTracking_false (t : TinyA6281) (m : Bool) :
    t.setStateTracking false m = (false, { t with tracking_state := false }) := by
  simp [setStateTracking]

theorem setStateTracking_alloc (t : TinyA6281) (h : t.state_vector = none)
    (hn : t.num_drivers ≠ 0) :
    t.setStateTracking true true
      = (true, { t with tracking_state := true,
                        state_vector := some (List.replicate t.num_drivers ⟨0⟩),
                        state_vector_head_idx := t.num_drivers }) := by
  simp [setStateTracking, h, hn]

theorem setStateTracking_fail (t : TinyA6281) (h : t.state_vector = none)
    (hn : t.num_drivers ≠ 0) :
    t.setStateTracking true false = (false, { t with tracking_state := false }) := by
  simp [setStateTracking, h, hn]

/-- Every public operation keeps the ring buffer consistent with the number
of stores made. -/
theorem Op.run_BufferInv (op : Op) (t : TinyA6281) (L r : Nat) (hL : 1 ≤ L)
    (h : BufferInv t L r) : BufferInv (op.run t) L (r + op.stores t) := by
  cases op with
  | setStateTracking s m =>
    obtain ⟨hn, hcase⟩ := h
    have hne : t.num_drivers ≠ 0 := by omega
    show BufferInv (t.setStateTracking s m).2 L (r + 0)
    rcases hcase with ⟨hnone, hr⟩ | ⟨sv, hsv, hlen, hhead⟩
    · cases s with
      | false =>
        rw [setStateTracking_false]
        exact ⟨hn, Or.inl ⟨hnone, hr⟩⟩
      | true =>
        cases m with
        | false =>
          rw [setStateTracking_fail t hnone hne]
          exact ⟨hn, Or.inl ⟨hnone, hr⟩⟩
        | true =>
          rw [setStateTracking_alloc t hnone hne]
          exact ⟨hn, Or.inr ⟨_, rfl, by simp [hn], Or.inl ⟨hr, hn⟩⟩⟩
    · rw [setStateTracking_of_some t sv s m hsv]
      exact ⟨hn, Or.inr ⟨sv, hsv, hlen, hhead⟩⟩
  | setAutoUpdate s => exact h
  | beginUpdate => exact h
  | endUpdate => exact BufferInv_congr _ _ (tracker_endUpdate t) L _ h
  | sendPacket p n => exact BufferInv_sendPacket p n t L r hL h
  | sendPackets ps =>
    have h1 := BufferInv_foldl_track (arrayPtr ps ⟨0⟩) L hL (List.range ps.length) t r h
    rw [List.length_range] at h1
    exact BufferInv_congr _ _ (tracker_sendPackets t _ _) L _ h1
  | sendPacketToAll p => exact BufferInv_sendPacket p _ t L r hL h
  | sendPWMValues a b c => exact BufferInv_sendPacket _ 1 t L r hL h
  | sendCommand a b c m => exact BufferInv_sendPacket _ 1 t L r hL h

theorem runOps_BufferInv (L : Nat) (hL : 1 ≤ L) (ops : List Op) :
    ∀ (t : TinyA6281) (r : Nat), BufferInv t L r →
      BufferInv (runOps t ops) L (r + storesMade t ops) := by
  induction ops with
  | nil => intro t r h; exact h
  | cons op ops ih =>
    intro t r h
    have h1 := ih _ _ (Op.run_BufferInv op t L r hL h)
    have e : r + storesMade t (op :: ops) = r + op.stores t + storesMade (op.run t) ops := by
      simp only [storesMade]
      omega
    rw [e]
    exact h1

theorem length_saveStateLoop (sv : List A6281Packet) (nd k : Nat) :
    ∀ cur, (saveStateLoop sv nd k cur).length = k := by
  induction k with
  | zero => intro cur; rfl
  | succ k ih => intro cur; simp [saveStateLoop, ih]

end TinyA6281

/-- Claim C19: on a chain of length `L >= 1`, after any sequence of public
operations from construction, `saveState` returns 0 and writes nothing
exactly when no packet has been stored in the ring buffer, which is the case
exactly when the state vector is not allocated or it is allocated and the
head index is still `L`; once a packet has been stored it returns `L` (and
writes `L` packets). -/
theorem saveState_zero_iff (L : Nat) (autoUpdates : Bool) (ops : List TinyA6281.Op)
    (hL : 1 ≤ L) :
    ((TinyA6281.runOps (TinyA6281.construct L autoUpdates) ops).saveState = (0, []) ↔
      TinyA6281.storesMade (TinyA6281.construct L autoUpdates) ops = 0) ∧
    (TinyA6281.storesMade (TinyA6281.construct L autoUpdates) ops = 0 ↔
      ((TinyA6281.runOps (TinyA6281.construct L autoUpdates) ops).state_vector = none ∨
       ((TinyA6281.runOps (TinyA6281.construct L autoUpdates) ops).state_vector ≠ none ∧
        (TinyA6281.runOps (TinyA6281.construct L autoUpdates) ops).state_vector_head_idx = L))) ∧
    (0 < TinyA6281.storesMade (TinyA6281.construct L autoUpdates) ops →
      (TinyA6281.runOps (TinyA6281.construct L autoUpdates) ops).saveState.1 = L ∧
      (TinyA6281.runOps (TinyA6281.construct L autoUpdates) ops).saveState.2.length = L) := by
  have h0 : TinyA6281.BufferInv (TinyA6281.construct L autoUpdates) L 0 :=
    ⟨rfl, Or.inl ⟨rfl, rfl⟩⟩
  have h := TinyA6281.runOps_BufferInv L hL ops _ _ h0
  rw [Nat.zero_add] at h
  generalize TinyA6281.runOps (TinyA6281.construct L autoUpdates) ops = t at h
  generalize TinyA6281.storesMade (TinyA6281.construct L autoUpdates) ops = r at h
  obtain ⟨hn, hcase⟩ := h
  rcases hcase with ⟨hnone, hr⟩ | ⟨sv, hsv, hlen, ⟨hr, hhead⟩ | ⟨hr, hhead⟩⟩
  · refine ⟨⟨fun _ => hr, fun _ => by simp [TinyA6281.saveState, hnone]⟩,
      ⟨fun _ => Or.inl hnone, fun _ => hr⟩, fun hpos => by omega⟩
  · have hs : t.saveState = (0, []) := by
      simp [TinyA6281.saveState, hsv, hn, hhead]
    refine ⟨⟨fun _ => hr, fun _ => hs⟩,
      ⟨fun _ => Or.inr ⟨by simp [hsv], hhead⟩, fun _ => hr⟩, fun hpos => by omega⟩
  · have hc : ¬ (t.state_vector_head_idx ≥ L) := by omega
    have hs : t.saveState
        = (L, TinyA6281.saveStateLoop sv L L t.state_vector_head_idx) := by
      simp only [TinyA6281.saveState, hsv, hn, if_neg hc]
    refine ⟨⟨fun h1 => ?_, fun h1 => by omega⟩, ⟨fun h1 => by omega, fun h1 => ?_⟩,
      fun _ => ?_⟩
    · rw [hs] at h1
      have := congrArg Prod.fst h1
      simp at this
      omega
    · rcases h1 with h1 | ⟨_, h1⟩
      · rw [hsv] at h1
        simp at h1
      · omega
    · rw [hs]
      exact ⟨rfl, TinyA6281.length_saveStateLoop sv L L _⟩

/-- Witness of C19: on a chain of length 2, a send before tracking is enabled
stores nothing, the send after it stores one packet, and `saveState` then
returns 2. -/
theorem saveState_zero_iff_witness :
    (TinyA6281.runOps (TinyA6281.construct 2 false)
      [.sendPacket ⟨5⟩ 1, .setStateTracking true true, .sendPacket ⟨6⟩ 1]).saveState.1 = 2 :=
  ((saveState_zero_iff 2 false
    [.sendPacket ⟨5⟩ 1, .setStateTracking true true, .sendPacket ⟨6⟩ 1] (by decide)).2.2
    (by decide)).1

namespace TinyA6281

theorem setStateTracking_zero (t : TinyA6281) (s m : Bool) (h : t.num_drivers = 0) :
    t.setStateTracking s m = (s, { t with tracking_state := s }) := by
  cases s <;> simp [setStateTracking, h]

/-- On a chain of length 0 no operation allocates the state vector. -/
theorem Op.run_zero_chain (op : Op) (t : TinyA6281) (h : t.num_drivers = 0)
    (hsv : t.state_vector = none) :
    (op.run t).num_drivers = 0 ∧ (op.run t).state_vector = none := by
  cases op with
  | setStateTracking s m =>
    show (t.setStateTracking s m).2.num_drivers = 0 ∧ (t.setStateTracking s m).2.state_vector = none
    rw [setStateTracking_zero t s m h]
    exact ⟨h, hsv⟩
  | setAutoUpdate s => exact ⟨h, hsv⟩
  | beginUpdate => exact ⟨h, hsv⟩
  | endUpdate =>
    exact ⟨(num_drivers_of_tracker _ _ (tracker_endUpdate t)).trans h,
      (state_vector_of_tracker _ _ (tracker_endUpdate t)).trans hsv⟩
  | sendPacket p n =>
    exact ⟨(num_drivers_sendPacket t p n).trans h, state_vector_sendPacket_none t p n hsv⟩
  | sendPackets ps =>
    refine ⟨(num_drivers_sendPackets t _ _).trans h, ?_⟩
    show (t.sendPackets _ _).state_vector = none
    rw [state_vector_of_tracker _ _ (tracker_sendPackets t _ _), foldl_track_of_none _ _ t hsv,
      hsv]
  | sendPacketToAll p =>
    exact ⟨(num_drivers_sendPacket t p _).trans h, state_vector_sendPacket_none t p _ hsv⟩
  | sendPWMValues a b c =>
    exact ⟨(num_drivers_sendPacket t _ 1).trans h, state_vector_sendPacket_none t _ 1 hsv⟩
  | sendCommand a b c m =>
    exact ⟨(num_drivers_sendPacket t _ 1).trans h, state_vector_sendPacket_none t _ 1 hsv⟩

theorem runOps_zero_chain (ops : List Op) :
    ∀ t : TinyA6281, t.num_drivers = 0 → t.state_vector = none →
      (runOps t ops).num_drivers = 0 ∧ (runOps t ops).state_vector = none := by
  induction ops with
  | nil => intro t h hsv; exact ⟨h, hsv⟩
  | cons op ops ih =>
    intro t h hsv
    obtain ⟨h1, h2⟩ := Op.run_zero_chain op t h hsv
    exact ih (op.run t) h1 h2

end TinyA6281

/-- Claim C21 as stated fails for chain length 0: `setStateTracking(true)`
returns true and `stateTracking()` is true afterwards although no state
vector is allocated, whatever `malloc` would have returned. -/
theorem setStateTracking_zero_chain :
    ((TinyA6281.construct 0 false).setStateTracking true true).1 = true ∧
    ((TinyA6281.construct 0 false).setStateTracking true true).2.stateTracking = true ∧
    ((TinyA6281.construct 0 false).setStateTracking true true).2.state_vector = none ∧
    ((TinyA6281.construct 0 false).setStateTracking true false).1 = true ∧
    ((TinyA6281.construct 0 false).setStateTracking true false).2.stateTracking = true ∧
    ((TinyA6281.construct 0 false).setStateTracking true false).2.state_vector = none := by
  decide

/-- Claim C21, amended: for every chain length `L >= 1` and every allocation
outcome, if `setStateTracking(true)` returns true then the state vector is
allocated, and if the allocation fails it returns false and
`stateTracking()` is false afterwards, the state vector staying unallocated;
with chain length 0 no allocation is attempted: `setStateTracking(true)`
only sets the tracking flag, so after any sequence of operations from
construction it returns true and `stateTracking()` is true afterwards,
without a state vector. -/
theorem setStateTracking_success_allocated (t : TinyA6281) (mallocOk : Bool)
    (hn : t.num_drivers ≠ 0) :
    ((t.setStateTracking true mallocOk).1 = true →
      (t.setStateTracking true mallocOk).2.state_vector ≠ none) ∧
    (t.setStateTracking true mallocOk).2.stateTracking = (t.setStateTracking true mallocOk).1 ∧
    (t.state_vector = none →
      (t.setStateTracking true false).1 = false ∧
      (t.setStateTracking true false).2.stateTracking = false ∧
      (t.setStateTracking true false).2.state_vector = none) ∧
    (∀ u : TinyA6281, u.num_drivers = 0 → u.state_vector = none →
      u.setStateTracking true mallocOk = (true, { u with tracking_state := true }) ∧
      (u.setStateTracking true mallocOk).1 = true ∧
      (u.setStateTracking true mallocOk).2.stateTracking = true ∧
      (u.setStateTracking true mallocOk).2.state_vector = none) ∧
    (∀ (autoUpdates : Bool) (ops : List TinyA6281.Op),
      ((TinyA6281.runOps (TinyA6281.construct 0 autoUpdates) ops).setStateTracking
          true mallocOk).1 = true ∧
      ((TinyA6281.runOps (TinyA6281.construct 0 autoUpdates) ops).setStateTracking
          true mallocOk).2.stateTracking = true ∧
      ((TinyA6281.runOps (TinyA6281.construct 0 autoUpdates) ops).setStateTracking
          true mallocOk).2.state_vector = none) := by
  refine ⟨?_, ?_, ?_, ?_, ?_⟩
  · cases hsv : t.state_vector with
    | some sv =>
      rw [TinyA6281.setStateTracking_of_some t sv true mallocOk hsv]
      intro _
      show t.state_vector ≠ none
      rw [hsv]
      simp
    | none =>
      cases mallocOk with
      | true =>
        rw [TinyA6281.setStateTracking_alloc t hsv hn]
        intro _
        simp
      | false =>
        rw [TinyA6281.setStateTracking_fail t hsv hn]
        intro h
        simp at h
  · cases hsv : t.state_vector with
    | some sv =>
      rw [TinyA6281.setStateTracking_of_some t sv true mallocOk hsv]
      rfl
    | none =>
      cases mallocOk with
      | true => rw [TinyA6281.setStateTracking_alloc t hsv hn]; rfl
      | false => rw [TinyA6281.setStateTracking_fail t hsv hn]; rfl
  · intro hsv
    rw [TinyA6281.setStateTracking_fail t hsv hn]
    exact ⟨rfl, rfl, hsv⟩
  · intro u hu hsv
    have e : u.setStateTracking true mallocOk = (true, { u with tracking_state := true }) := by
      simp [TinyA6281.setStateTracking, hu]
    rw [e]
    exact ⟨rfl, rfl, rfl, hsv⟩
  · intro autoUpdates ops
    obtain ⟨h1, h2⟩ := TinyA6281.runOps_zero_chain ops (TinyA6281.construct 0 autoUpdates)
      rfl rfl
    rw [TinyA6281.setStateTracking_zero _ true mallocOk h1]
    exact ⟨rfl, rfl, h2⟩

/-- Witness of C21 (amended): a failed allocation on a fresh controller of
chain length 3. -/
theorem setStateTracking_success_allocated_witness :
    ((TinyA6281.construct 3 false).setStateTracking true false).1 = false ∧
    ((TinyA6281.construct 3 false).setStateTracking true false).2.stateTracking = false ∧
    ((TinyA6281.construct 3 false).setStateTracking true false).2.state_vector = none :=
  (setStateTracking_success_allocated (TinyA6281.construct 3 false) false (by decide)).2.2.1 rfl

/-! ## `setEnabled` -/

namespace TinyA6281

theorem nEnable_sendPacket (t : TinyA6281) (p : A6281Packet) (n : Nat) :
    (t.sendPacket p n).using_nEnable = t.using_nEnable ∧
    (t.sendPacket p n).pin_nEnable = t.pin_nEnable := by
  have c := controller_sendPacket t p n
  simp only [controller, Prod.mk.injEq] at c
  exact ⟨c.1, c.2.2.2.2.1⟩

theorem nEnable_sendPackets (t : TinyA6281) (a : Nat → A6281Packet) (k : Nat) :
    (t.sendPackets a k).using_nEnable = t.using_nEnable ∧
    (t.sendPackets a k).pin_nEnable = t.pin_nEnable := by
  cases h : t.auto_update_cycle with
  | true =>
    have c := controller_sendPackets_on t a k h
    simp only [controller, Prod.mk.injEq] at c
    exact ⟨c.1, c.2.2.2.2.1⟩
  | false =>
    have c := controller_sendPackets_off t a k h
    simp only [controller, Prod.mk.injEq] at c
    exact ⟨c.1, c.2.2.2.2.1⟩

/-- No public operation other than `setup` changes whether the not-enable
line is in use, or its pin. -/
theorem Op.run_nEnable (op : Op) (t : TinyA6281) :
    (op.run t).using_nEnable = t.using_nEnable ∧ (op.run t).pin_nEnable = t.pin_nEnable := by
  cases op with
  | setStateTracking s m =>
    show (t.setStateTracking s m).2.using_nEnable = _ ∧ (t.setStateTracking s m).2.pin_nEnable = _
    unfold TinyA6281.setStateTracking
    simp only []
    split
    · split <;> exact ⟨rfl, rfl⟩
    · exact ⟨rfl, rfl⟩
  | setAutoUpdate s => exact ⟨rfl, rfl⟩
  | beginUpdate => exact ⟨rfl, rfl⟩
  | endUpdate =>
    have c := controller_endUpdate t
    simp only [controller, Prod.mk.injEq] at c
    exact ⟨c.1, c.2.2.2.2.1⟩
  | sendPacket p n => exact nEnable_sendPacket t p n
  | sendPackets ps => exact nEnable_sendPackets t _ _
  | sendPacketToAll p => exact nEnable_sendPacket t p _
  | sendPWMValues a b c => exact nEnable_sendPacket t _ 1
  | sendCommand a b c m => exact nEnable_sendPacket t _ 1

theorem runOps_nEnable (ops : List Op) :
    ∀ t : TinyA6281, (runOps t ops).using_nEnable = t.using_nEnable ∧
      (runOps t ops).pin_nEnable = t.pin_nEnable := by
  induction ops with
  | nil => intro t; exact ⟨rfl, rfl⟩
  | cons op ops ih =>
    intro t
    obtain ⟨h1, h2⟩ := ih (op.run t)
    obtain ⟨h3, h4⟩ := Op.run_nEnable op t
    exact ⟨h1.trans h3, h2.trans h4⟩

theorem using_nEnable_setup3 (t : TinyA6281) (d c l : Nat) :
    (t.setup3 d c l).using_nEnable = false := by
  simp [setup3, setPins, call]

theorem using_nEnable_setup4 (t : TinyA6281) (d c l e : Nat) :
    (t.setup4 d c l e).using_nEnable = true ∧ (t.setup4 d c l e).pin_nEnable = e := by
  simp [setup4, setPins, call]

end TinyA6281

/-- Claim C22: after the 3-pin `setup` (and any operations that follow it)
`setEnabled(active)` makes no platform call and changes nothing; after the
4-pin `setup` (and any operations that follow it) it makes exactly one call,
a write of the not-enable pin with level LOW when `active` is true and HIGH
when it is false, and changes no member of the controller. -/
theorem setEnabled_writes (t : TinyA6281) (datapin clockpin latchpin nEnablepin : Nat)
    (active : Bool) (ops : List TinyA6281.Op) :
    (TinyA6281.runOps (t.setup3 datapin clockpin latchpin) ops).setEnabled active
      = TinyA6281.runOps (t.setup3 datapin clockpin latchpin) ops ∧
    (TinyA6281.runOps (t.setup4 datapin clockpin latchpin nEnablepin) ops).setEnabled active
      = { TinyA6281.runOps (t.setup4 datapin clockpin latchpin nEnablepin) ops with
          mcu := (TinyA6281.runOps (t.setup4 datapin clockpin latchpin nEnablepin) ops).mcu ++
            [.digitalOut nEnablepin (if active = true then LOW else HIGH)] } := by
  obtain ⟨h1, _⟩ := TinyA6281.runOps_nEnable ops (t.setup3 datapin clockpin latchpin)
  obtain ⟨h2, h3⟩ := TinyA6281.runOps_nEnable ops (t.setup4 datapin clockpin latchpin nEnablepin)
  rw [TinyA6281.using_nEnable_setup3] at h1
  rw [(TinyA6281.using_nEnable_setup4 t datapin clockpin latchpin nEnablepin).1] at h2
  rw [(TinyA6281.using_nEnable_setup4 t datapin clockpin latchpin nEnablepin).2] at h3
  constructor
  · simp [TinyA6281.setEnabled, h1]
  · generalize TinyA6281.runOps (t.setup4 datapin clockpin latchpin nEnablepin) ops = u at h2 h3
    cases active <;> simp [TinyA6281.setEnabled, h2, h3, TinyA6281.call]

/-! ## The ring buffer before it is full -/

namespace TinyA6281

theorem head_of_tracker (a b : TinyA6281) (h : a.tracker = b.tracker) :
    a.state_vector_head_idx = b.state_vector_head_idx := by
  simp only [tracker, Prod.mk.injEq] at h
  exact h.2.2.1

/-- The state-tracking block on a tracked buffer: the new head index and the
new contents. -/
theorem sendPacketTrack_of_tracking (p : A6281Packet) (t : TinyA6281) (sv : List A6281Packet)
    (ht : t.tracking_state = true) (hsv : t.state_vector = some sv) :
    sendPacketTrack p t =
      { t with
        state_vector_head_idx :=
          (if t.state_vector_head_idx = 0 then DriverNum.decr t.num_drivers
           else t.state_vector_head_idx - 1),
        state_vector := some (sv.set
          (if t.state_vector_head_idx = 0 then DriverNum.decr t.num_drivers
           else t.state_vector_head_idx - 1) p) } := by
  by_cases h0 : t.state_vector_head_idx = 0
  · simp [sendPacketTrack, hsv, ht, h0]
  · simp [sendPacketTrack, hsv, ht, h0]

theorem head_sendPacket_of_Tracks (t : TinyA6281) (L : Nat) (view : List A6281Packet)
    (p : A6281Packet) (n : Nat) (h : Tracks t L view) (h0 : t.state_vector_head_idx ≠ 0) :
    (t.sendPacket p n).state_vector_head_idx = t.state_vector_head_idx - 1 := by
  obtain ⟨ht, _, _, sv, hsv, _, _⟩ := h
  rw [head_of_tracker _ _ (tracker_sendPacket t p n), sendPacketTrack_of_tracking p t sv ht hsv]
  simp [h0]

theorem head_sendEach (L : Nat) (hL : 1 ≤ L) (hL255 : L ≤ 255) (ps : List A6281Packet) :
    ∀ (t : TinyA6281) (view : List A6281Packet), Tracks t L view →
      ps.length ≤ t.state_vector_head_idx →
      (t.sendEach ps).state_vector_head_idx = t.state_vector_head_idx - ps.length := by
  induction ps with
  | nil => intro t view _ _; rfl
  | cons p ps ih =>
    intro t view h hlen
    simp only [List.length_cons] at hlen
    have h0 : t.state_vector_head_idx ≠ 0 := by omega
    have e := head_sendPacket_of_Tracks t L view p 1 h h0
    obtain ⟨h1, _⟩ := Tracks_sendPacket t L view p 1 hL hL255 h
    have e2 : sendEach t (p :: ps) = sendEach (t.sendPacket p 1) ps := rfl
    rw [e2, ih _ _ h1 (by omega), e, List.length_cons]
    omega

end TinyA6281

/-- Claim C23: with tracking freshly enabled on a chain of length `L`, after
`m` single-packet sends `P1..Pm` with `1 <= m < L` the head index is `L - m`
and `saveState` returns `L` and writes `[Pm, ..., P1]` followed by `L - m`
all-zero packets. -/
theorem saveState_partly_filled (L : Nat) (autoUpdates : Bool) (ps : List A6281Packet)
    (hm : 1 ≤ ps.length) (hmL : ps.length < L) (hL255 : L ≤ 255) :
    ((((TinyA6281.construct L autoUpdates).setStateTracking true true).2).sendEach
        ps).state_vector_head_idx = L - ps.length ∧
    ((((TinyA6281.construct L autoUpdates).setStateTracking true true).2).sendEach ps).saveState
      = (L, ps.reverse ++ List.replicate (L - ps.length) ⟨0⟩) := by
  have hL : 1 ≤ L := by omega
  obtain ⟨h0, hh⟩ := TinyA6281.Tracks_fresh L autoUpdates hL
  obtain ⟨h1, h2⟩ := TinyA6281.Tracks_sendEach L hL hL255 ps _ _ h0
  have hne : ps ≠ [] := by
    intro h
    simp [h] at hm
  have hd := TinyA6281.head_sendEach L hL hL255 ps _ _ h0 (by rw [hh]; omega)
  rw [hh] at hd
  refine ⟨hd, ?_⟩
  rw [TinyA6281.saveState_of_Tracks _ L _ hL255 h1 (h2 hne)]
  congr 1
  rw [List.take_append_eq_append_take, List.take_of_length_le (by simp; omega),
    List.length_reverse, List.take_replicate]
  congr 2
  omega

/-- Witness of C23: two sends on a chain of length 4 leave head index 2 and
the saved state `[2, 1, 0, 0]`. -/
theorem saveState_partly_filled_witness :
    ((((TinyA6281.construct 4 false).setStateTracking true true).2).sendEach
        [⟨1⟩, ⟨2⟩]).state_vector_head_idx = 4 - 2 ∧
    ((((TinyA6281.construct 4 false).setStateTracking true true).2).sendEach
        [⟨1⟩, ⟨2⟩]).saveState = (4, [⟨2⟩, ⟨1⟩, ⟨0⟩, ⟨0⟩]) :=
  saveState_partly_filled 4 false [⟨1⟩, ⟨2⟩] (by decide) (by decide) (by decide)

/-! ## `sendPackets` against single sends -/

namespace TinyA6281

theorem sendPacketsLoop_eq_sendEach (a : Nat → A6281Packet) (k : Nat) :
    ∀ (i : Nat) (t : TinyA6281),
      sendPacketsLoop a k i t = t.sendEach ((List.range k).map (fun j => a (i + j))) := by
  induction k with
  | zero => intro i t; rfl
  | succ k ih =>
    intro i t
    have e : ∀ j, i + 1 + j = i + (j + 1) := by intro j; omega
    rw [sendPacketsLoop, ih, List.range_succ_eq_map]
    simp [sendEach, Function.comp_def, e]

theorem sendPackets_off_eq_loop (t : TinyA6281) (a : Nat → A6281Packet) (k : Nat)
    (h : t.auto_update_cycle = false) : t.sendPackets a k = sendPacketsLoop a k 0 t := by
  unfold sendPackets
  simp [h]

end TinyA6281

/-- Claim C24: with auto-update off, `sendPackets` on the packet sequence
`[P1..Pk]` leaves the same object (same platform calls in `mcu`, same
controller and tracker members) as the calls `sendPacket(P1)`, ...,
`sendPacket(Pk)` in that order; so on a tracked buffer of length `k` the
saved state afterwards is the sequence reversed, its first packet last. -/
theorem sendPackets_eq_sendEach (t : TinyA6281) (ps : List A6281Packet)
    (a : Nat → A6281Packet) (ha : TinyA6281.pointsTo a ps)
    (h : t.auto_update_cycle = false) :
    t.sendPackets a ps.length = t.sendEach ps ∧
    (t.sendPackets a ps.length).mcu = (t.sendEach ps).mcu ∧
    (∀ sv : List A6281Packet, t.tracking_state = true → t.state_vector = some sv →
      sv.length = ps.length → t.num_drivers = ps.length →
      t.state_vector_head_idx ≤ ps.length → 1 ≤ ps.length → ps.length ≤ 255 →
      (t.sendPackets a ps.length).saveState = (ps.length, ps.reverse) ∧
      (t.sendPackets a ps.length).saveState.2.getLast? = ps.head?) := by
  have e : t.sendPackets a ps.length = t.sendEach ps := by
    rw [TinyA6281.sendPackets_off_eq_loop t a _ h, TinyA6281.sendPacketsLoop_eq_sendEach]
    simp only [Nat.zero_add]
    rw [TinyA6281.map_range_pointsTo a ps ha]
  refine ⟨e, by rw [e], ?_⟩
  intro sv ht hsv hlen hn hhead h1 h255
  have hT : TinyA6281.Tracks t ps.length (TinyA6281.ringView sv t.state_vector_head_idx) :=
    ⟨ht, hn, hhead, sv, hsv, hlen, rfl⟩
  obtain ⟨h3, h4⟩ := TinyA6281.Tracks_sendEach ps.length h1 h255 ps t _ hT
  have hne : ps ≠ [] := by
    intro h0
    simp [h0] at h1
  have hs : (t.sendPackets a ps.length).saveState = (ps.length, ps.reverse) := by
    rw [e, TinyA6281.saveState_of_Tracks _ _ _ h255 h3 (h4 hne),
      List.take_append_of_le_length (by simp), List.take_of_length_le (by simp)]
  refine ⟨hs, ?_⟩
  rw [hs]
  simp

/-- Witness of C24: three packets on a chain of length 3 with tracking on and
auto-update off. -/
theorem sendPackets_eq_sendEach_witness :
    (((TinyA6281.construct 3 false).setStateTracking true true).2.sendPackets
        (TinyA6281.arrayPtr [⟨1⟩, ⟨2⟩, ⟨3⟩] ⟨0⟩) 3)
      = ((TinyA6281.construct 3 false).setStateTracking true true).2.sendEach
          [⟨1⟩, ⟨2⟩, ⟨3⟩] :=
  (sendPackets_eq_sendEach ((TinyA6281.construct 3 false).setStateTracking true true).2
    [⟨1⟩, ⟨2⟩, ⟨3⟩] (TinyA6281.arrayPtr [⟨1⟩, ⟨2⟩, ⟨3⟩] ⟨0⟩)
    (TinyA6281.pointsTo_arrayPtr _ _) rfl).1

/-! ## Bounds of the accesses to the state vector -/

namespace TinyA6281

/-- The state-tracking block stores at the slot `sendPacketStoreIndex` names
and nowhere else. -/
theorem sendPacketTrack_stores_at (p : A6281Packet) (t : TinyA6281) :
    sendPacketTrack p t =
      (match sendPacketStoreIndex t with
       | some i => { t with state_vector_head_idx := i,
                            state_vector := t.state_vector.map (fun sv => sv.set i p) }
       | none => t) := by
  unfold sendPacketTrack sendPacketStoreIndex
  cases h1 : t.state_vector with
  | none => simp
  | some sv => cases h2 : t.tracking_state <;> simp

/-- The copy loop of `saveState` writes the contents of the slots
`saveStateLoopReads` names. -/
theorem saveStateLoop_eq_map_reads (sv : List A6281Packet) (nd k : Nat) :
    ∀ cur, saveStateLoop sv nd k cur
      = (saveStateLoopReads nd k cur).map (fun i => sv.getD i ⟨0⟩) := by
  induction k with
  | zero => intro cur; rfl
  | succ k ih => intro cur; simp [saveStateLoop, saveStateLoopReads, ih]

theorem saveStateLoopReads_lt (nd k : Nat) :
    ∀ cur, cur < nd → ∀ i ∈ saveStateLoopReads nd k cur, i < nd := by
  induction k with
  | zero => intro cur _ i hi; simp [saveStateLoopReads] at hi
  | succ k ih =>
    intro cur hc i hi
    simp only [saveStateLoopReads, List.mem_cons] at hi
    rcases hi with hi | hi
    · omega
    · refine ih _ ?_ i hi
      split <;> omega

theorem sendPacketStoreIndex_lt (t : TinyA6281) (L r : Nat) (hL : 1 ≤ L)
    (h : BufferInv t L r) : ∀ i, sendPacketStoreIndex t = some i → i < L := by
  intro i hi
  obtain ⟨hn, hcase⟩ := h
  rcases hcase with ⟨hnone, _⟩ | ⟨sv, hsv, _, hhead⟩
  · simp [sendPacketStoreIndex, hnone] at hi
  · have hle : t.state_vector_head_idx ≤ L := by
      rcases hhead with ⟨_, h1⟩ | ⟨_, h1⟩ <;> omega
    cases ht : t.tracking_state with
    | false => simp [sendPacketStoreIndex, hsv, ht] at hi
    | true =>
      by_cases h0 : t.state_vector_head_idx = 0
      · simp [sendPacketStoreIndex, hsv, ht, h0, DriverNum.decr, DriverNum.size, hn] at hi
        omega
      · simp [sendPacketStoreIndex, hsv, ht, h0] at hi
        omega

theorem sendEachStoreIndices_lt (L : Nat) (hL : 1 ≤ L) (ps : List A6281Packet) :
    ∀ (t : TinyA6281) (r : Nat), BufferInv t L r → ∀ i ∈ sendEachStoreIndices t ps, i < L := by
  induction ps with
  | nil => intro t r _ i hi; simp [sendEachStoreIndices] at hi
  | cons p ps ih =>
    intro t r h i hi
    simp only [sendEachStoreIndices, List.mem_append, Option.mem_toList] at hi
    rcases hi with hi | hi
    · exact sendPacketStoreIndex_lt t L r hL h i hi
    · exact ih _ _ (BufferInv_sendPacketTrack p t L r hL h) i hi

theorem Op.storeIndices_lt (op : Op) (t : TinyA6281) (L r : Nat) (hL : 1 ≤ L)
    (h : BufferInv t L r) : ∀ i ∈ op.storeIndices t, i < L := by
  intro i hi
  cases op with
  | setStateTracking s m => simp [Op.storeIndices] at hi
  | setAutoUpdate s => simp [Op.storeIndices] at hi
  | beginUpdate => simp [Op.storeIndices] at hi
  | endUpdate => simp [Op.storeIndices] at hi
  | sendPacket p n =>
    exact sendPacketStoreIndex_lt t L r hL h i (by simpa [Op.storeIndices] using hi)
  | sendPackets ps => exact sendEachStoreIndices_lt L hL ps t r h i hi
  | sendPacketToAll p =>
    exact sendPacketStoreIndex_lt t L r hL h i (by simpa [Op.storeIndices] using hi)
  | sendPWMValues a b c =>
    exact sendPacketStoreIndex_lt t L r hL h i (by simpa [Op.storeIndices] using hi)
  | sendCommand a b c m =>
    exact sendPacketStoreIndex_lt t L r hL h i (by simpa [Op.storeIndices] using hi)

theorem storeIndicesMade_lt (L : Nat) (hL : 1 ≤ L) (ops : List Op) :
    ∀ (t : TinyA6281) (r : Nat), BufferInv t L r → ∀ i ∈ storeIndicesMade t ops, i < L := by
  induction ops with
  | nil => intro t r _ i hi; simp [storeIndicesMade] at hi
  | cons op ops ih =>
    intro t r h i hi
    simp only [storeIndicesMade, List.mem_append] at hi
    rcases hi with hi | hi
    · exact Op.storeIndices_lt op t L r hL h i hi
    · exact ih _ _ (Op.run_BufferInv op t L r hL h) i hi

end TinyA6281

/-- Claim C25: for a controller of chain length `L >= 1` and every sequence
of public operations from construction, an allocated ring buffer has `L`
slots and a head index `<= L`; every store the operations make into the
buffer, every read a `saveState` makes afterwards, and every slot a
`getState` addresses afterwards, has an index `< L`. -/
theorem buffer_accesses_in_bounds (L : Nat) (autoUpdates : Bool) (ops : List TinyA6281.Op)
    (hL : 1 ≤ L) :
    (∀ sv, (TinyA6281.runOps (TinyA6281.construct L autoUpdates) ops).state_vector = some sv →
      sv.length = L ∧
      (TinyA6281.runOps (TinyA6281.construct L autoUpdates) ops).state_vector_head_idx ≤ L) ∧
    (∀ i ∈ TinyA6281.storeIndicesMade (TinyA6281.construct L autoUpdates) ops, i < L) ∧
    (∀ i ∈ (TinyA6281.runOps (TinyA6281.construct L autoUpdates) ops).saveStateReads, i < L) ∧
    (∀ k i, (TinyA6281.runOps (TinyA6281.construct L autoUpdates) ops).getState k = some i →
      i < L) := by
  have h0 : TinyA6281.BufferInv (TinyA6281.construct L autoUpdates) L 0 :=
    ⟨rfl, Or.inl ⟨rfl, rfl⟩⟩
  have hs := TinyA6281.storeIndicesMade_lt L hL ops _ _ h0
  have h := TinyA6281.runOps_BufferInv L hL ops _ _ h0
  generalize TinyA6281.runOps (TinyA6281.construct L autoUpdates) ops = t at h
  generalize 0 + TinyA6281.storesMade (TinyA6281.construct L autoUpdates) ops = r at h
  obtain ⟨hn, hcase⟩ := h
  refine ⟨?_, hs, ?_, ?_⟩
  · intro sv hsv
    rcases hcase with ⟨hnone, _⟩ | ⟨sv2, hsv2, hlen, hhead⟩
    · rw [hnone] at hsv
      simp at hsv
    · rw [hsv2] at hsv
      cases hsv
      refine ⟨hlen, ?_⟩
      rcases hhead with ⟨_, h1⟩ | ⟨_, h1⟩ <;> omega
  · intro i hi
    unfold TinyA6281.saveStateReads at hi
    cases hsv : t.state_vector with
    | none => simp [hsv] at hi
    | some sv =>
      simp only [hsv] at hi
      by_cases hc : t.state_vector_head_idx ≥ t.num_drivers
      · simp [hc] at hi
      · rw [if_neg hc, hn] at hi
        exact TinyA6281.saveStateLoopReads_lt L L _ (by omega) i hi
  · intro k i hi
    unfold TinyA6281.getState at hi
    split at hi
    · simp at hi
    · rename_i hc
      simp only [Option.some.injEq] at hi
      simp only [Bool.or_eq_true, decide_eq_true_eq, not_or] at hc
      omega

/-- Witness of C25: on a chain of length 2, sends before and after tracking
is enabled, with repeats and a batch, leave the buffer `[5, 6]` with 2 slots
and head index 1, and slot 1 is among the slots stored into. -/
theorem buffer_accesses_in_bounds_witness :
    (([⟨5⟩, ⟨6⟩] : List A6281Packet).length = 2 ∧
      (TinyA6281.runOps (TinyA6281.construct 2 true)
        [.sendPacket ⟨1⟩ 1, .setStateTracking true true, .sendPacket ⟨2⟩ 3,
         .sendPackets [⟨3⟩, ⟨4⟩, ⟨5⟩], .sendPacketToAll ⟨6⟩]).state_vector_head_idx ≤ 2) ∧
    (1 ∈ TinyA6281.storeIndicesMade (TinyA6281.construct 2 true)
        [.sendPacket ⟨1⟩ 1, .setStateTracking true true, .sendPacket ⟨2⟩ 3,
         .sendPackets [⟨3⟩, ⟨4⟩, ⟨5⟩], .sendPacketToAll ⟨6⟩] ∧ 1 < 2) :=
  ⟨(buffer_accesses_in_bounds 2 true
      [.sendPacket ⟨1⟩ 1, .setStateTracking true true, .sendPacket ⟨2⟩ 3,
       .sendPackets [⟨3⟩, ⟨4⟩, ⟨5⟩], .sendPacketToAll ⟨6⟩] (by decide)).1
      [⟨5⟩, ⟨6⟩] (by decide),
   by decide,
   (buffer_accesses_in_bounds 2 true
      [.sendPacket ⟨1⟩ 1, .setStateTracking true true, .sendPacket ⟨2⟩ 3,
       .sendPackets [⟨3⟩, ⟨4⟩, ⟨5⟩], .sendPacketToAll ⟨6⟩] (by decide)).2.1 1 (by decide)⟩

/-! ## One call of `sendPacket` on a tracked buffer -/

/-- Claim C26 as stated fails with auto-update on: on a chain of length 2
with tracking on, after `sendPacket(p, 2)` the sent-count is 2, and a
following `sendPacket(q, 1)` leaves it at 1, not at 2 + 1: the call begins a
new update cycle before it counts. -/
theorem sendPacket_count_restarts :
    ((((TinyA6281.construct 2 true).setStateTracking true true).2).sendPacket ⟨1⟩ 2).num_sent
      = 2 ∧
    (((((TinyA6281.construct 2 true).setStateTracking true true).2).sendPacket ⟨1⟩ 2
      ).sendPacket ⟨2⟩ 1).num_sent = 1 ∧
    (1 : Nat) ≠ (2 + 1) % 256 := by
  decide

/-- Claim C26, amended: with tracking enabled and the buffer allocated, one
call `sendPacket(p, n)` records `p` exactly once for every repeat count `n`,
`n = 0` included: the head index moves back by one position (from 0 round to
`L - 1`), only the slot at the new head changes, to `p`, and the sent-count
becomes its old value plus `n` modulo 2^8 when auto-update is off, and `n`
modulo 2^8 when auto-update is on. -/
theorem sendPacket_records_once (t : TinyA6281) (sv : List A6281Packet) (L : Nat)
    (p : A6281Packet) (n : Nat)
    (ht : t.tracking_state = true) (hsv : t.state_vector = some sv) (hlen : sv.length = L)
    (hn : t.num_drivers = L) (hL : 1 ≤ L) (hL255 : L ≤ 255)
    (hhead : t.state_vector_head_idx ≤ L) (hs : t.num_sent < 256) :
    (t.sendPacket p n).state_vector_head_idx
      = (if t.state_vector_head_idx = 0 then L - 1 else t.state_vector_head_idx - 1) ∧
    (t.sendPacket p n).state_vector_head_idx < L ∧
    (t.sendPacket p n).state_vector
      = some (sv.set (t.sendPacket p n).state_vector_head_idx p) ∧
    (sv.set (t.sendPacket p n).state_vector_head_idx p)[(t.sendPacket p n).state_vector_head_idx]?
      = some p ∧
    (∀ j, j ≠ (t.sendPacket p n).state_vector_head_idx →
      (sv.set (t.sendPacket p n).state_vector_head_idx p)[j]? = sv[j]?) ∧
    (t.sendPacket p n).num_sent
      = ((if t.auto_update_cycle = true then 0 else t.num_sent) + n) % 256 ∧
    (t.sendPacket p n).tracking_state = true := by
  have hd : DriverNum.decr t.num_drivers = L - 1 := by
    simp only [DriverNum.decr, DriverNum.size, hn]
    omega
  have e := TinyA6281.tracker_sendPacket t p n
  rw [TinyA6281.sendPacketTrack_of_tracking p t sv ht hsv, hd] at e
  simp only [TinyA6281.tracker, Prod.mk.injEq] at e
  obtain ⟨e1, e2, e3, _⟩ := e
  have hlt : (t.sendPacket p n).state_vector_head_idx < L := by
    rw [e3]
    split <;> omega
  have c := TinyA6281.controller_sendPacket t p n
  simp only [TinyA6281.controller, Prod.mk.injEq] at c
  refine ⟨e3, hlt, ?_, ?_, ?_, ?_, e1.trans ht⟩
  · rw [e2, e3]
  · rw [List.getElem?_set_self]
    rw [hlen]
    exact hlt
  · intro j hj
    rw [List.getElem?_set_ne (Ne.symm hj)]
  · rw [c.2.2.2.2.2.1, TinyA6281.incr_iterate n _ (by split <;> omega)]

/-- Witness of C26 (amended): a repeat count of 0 on a fresh tracked buffer
of length 2 still moves the head from 2 to 1. -/
theorem sendPacket_records_once_witness :
    ((((TinyA6281.construct 2 false).setStateTracking true true).2).sendPacket
        ⟨7⟩ 0).state_vector_head_idx
      = (if (((TinyA6281.construct 2 false).setStateTracking true true).2).state_vector_head_idx
            = 0 then 2 - 1
         else (((TinyA6281.construct 2 false).setStateTracking true true).2).state_vector_head_idx
            - 1) :=
  (sendPacket_records_once (((TinyA6281.construct 2 false).setStateTracking true true).2)
    [⟨0⟩, ⟨0⟩] 2 ⟨7⟩ 0 rfl rfl rfl rfl (by decide) (by decide) (by decide) (by decide)).1

/-! ## Sends while tracking is switched off -/

namespace TinyA6281

theorem sendPacketTrack_of_off (p : A6281Packet) (t : TinyA6281)
    (h : t.tracking_state = false) : sendPacketTrack p t = t := by
  unfold sendPacketTrack
  cases t.state_vector with
  | none => rfl
  | some sv => simp [h]

theorem foldl_track_of_off (f : Nat → A6281Packet) (l : List Nat) (t : TinyA6281)
    (h : t.tracking_state = false) :
    l.foldl (fun x j => sendPacketTrack (f j) x) t = t := by
  induction l with
  | nil => rfl
  | cons j l ih => rw [List.foldl_cons, sendPacketTrack_of_off _ t h, ih]

theorem tracker_sendPacket_off (t : TinyA6281) (p : A6281Packet) (n : Nat)
    (h : t.tracking_state = false) : (t.sendPacket p n).tracker = t.tracker := by
  rw [tracker_sendPacket, sendPacketTrack_of_off p t h]

/-- A send call made while tracking is off leaves the tracker members alone. -/
theorem Op.run_send_tracking_off (op : Op) (t : TinyA6281) (h : t.tracking_state = false)
    (hs : op.isSend = true) : (op.run t).tracker = t.tracker := by
  cases op with
  | setStateTracking s m => simp [Op.isSend] at hs
  | setAutoUpdate s => simp [Op.isSend] at hs
  | beginUpdate => simp [Op.isSend] at hs
  | endUpdate => simp [Op.isSend] at hs
  | sendPacket p n => exact tracker_sendPacket_off t p n h
  | sendPackets ps =>
    show (t.sendPackets _ _).tracker = t.tracker
    rw [tracker_sendPackets, foldl_track_of_off _ _ t h]
  | sendPacketToAll p => exact tracker_sendPacket_off t p _ h
  | sendPWMValues a b c => exact tracker_sendPacket_off t _ 1 h
  | sendCommand a b c m => exact tracker_sendPacket_off t _ 1 h

theorem runOps_sends_tracking_off (ops : List Op) :
    ∀ t : TinyA6281, t.tracking_state = false → (∀ op ∈ ops, op.isSend = true) →
      (runOps t ops).tracker = t.tracker := by
  induction ops with
  | nil => intro t _ _; rfl
  | cons op ops ih =>
    intro t h hs
    have e := Op.run_send_tracking_off op t h (hs op (List.mem_cons_self _ _))
    have e2 : (op.run t).tracking_state = false := by
      have e3 := e
      simp only [tracker, Prod.mk.injEq] at e3
      rw [e3.1, h]
    exact (ih (op.run t) e2 (fun o ho => hs o (List.mem_cons_of_mem _ ho))).trans e

end TinyA6281

/-- Claim C27: while state tracking is switched off (never enabled, or
disabled again), every sequence of send calls leaves the state vector, the
head index and the tracking flag unchanged; when tracking is then switched
on again over the allocated buffer, the buffer and the head index are still
the ones from before the sends, and the next send records one slot before
that head. -/
theorem sends_skip_tracker_when_off (t : TinyA6281) (ops : List TinyA6281.Op)
    (ht : t.tracking_state = false) (hs : ∀ op ∈ ops, op.isSend = true) :
    (TinyA6281.runOps t ops).state_vector = t.state_vector ∧
    (TinyA6281.runOps t ops).state_vector_head_idx = t.state_vector_head_idx ∧
    (TinyA6281.runOps t ops).tracking_state = false ∧
    (∀ (sv : List A6281Packet) (m : Bool) (p : A6281Packet) (n : Nat),
      t.state_vector = some sv →
      ((TinyA6281.runOps t ops).setStateTracking true m).2.tracker
        = (true, some sv, t.state_vector_head_idx, t.num_drivers) ∧
      ((((TinyA6281.runOps t ops).setStateTracking true m).2).sendPacket p n).tracker
        = ((t.setStateTracking true m).2.sendPacket p n).tracker) := by
  have e := TinyA6281.runOps_sends_tracking_off ops t ht hs
  have e0 := e
  simp only [TinyA6281.tracker, Prod.mk.injEq] at e0
  obtain ⟨e1, e2, e3, e4⟩ := e0
  refine ⟨e2, e3, e1.trans ht, ?_⟩
  intro sv m p n hsv
  have hsv2 : (TinyA6281.runOps t ops).state_vector = some sv := e2.trans hsv
  have k1 : ((TinyA6281.runOps t ops).setStateTracking true m).2.tracker
      = (true, some sv, t.state_vector_head_idx, t.num_drivers) := by
    rw [TinyA6281.setStateTracking_of_some _ sv true m hsv2]
    simp only [TinyA6281.tracker, hsv2, e3, e4]
  have k2 : (t.setStateTracking true m).2.tracker
      = (true, some sv, t.state_vector_head_idx, t.num_drivers) := by
    rw [TinyA6281.setStateTracking_of_some _ sv true m hsv]
    simp only [TinyA6281.tracker, hsv]
  refine ⟨k1, ?_⟩
  rw [TinyA6281.tracker_sendPacket, TinyA6281.tracker_sendPacket]
  exact TinyA6281.tracker_sendPacketTrack_congr p _ _ (k1.trans k2.symm)

/-- Witness of C27: tracking enabled, one packet recorded, tracking switched
off, then three send calls: the buffer is as it was. -/
theorem sends_skip_tracker_when_off_witness :
    (TinyA6281.runOps
      ((((TinyA6281.construct 2 false).setStateTracking true true).2.sendPacket ⟨1⟩ 1
        ).setStateTracking false true).2
      [.sendPacket ⟨2⟩ 1, .sendPackets [⟨3⟩, ⟨4⟩], .sendPacketToAll ⟨5⟩]).state_vector
      = ((((TinyA6281.construct 2 false).setStateTracking true true).2.sendPacket ⟨1⟩ 1
        ).setStateTracking false true).2.state_vector :=
  (sends_skip_tracker_when_off
    ((((TinyA6281.construct 2 false).setStateTracking true true).2.sendPacket ⟨1⟩ 1
      ).setStateTracking false true).2
    [.sendPacket ⟨2⟩ 1, .sendPackets [⟨3⟩, ⟨4⟩], .sendPacketToAll ⟨5⟩]
    (by decide) (by decide)).1

/-! ## The colour-naming wrapper -/

theorem colorPacket_value (r g b : Nat) :
    (TinyBrite.colorPacket r g b).value
      = g % 1024 + (r % 1024) * 2 ^ 10 + (b % 1024) * 2 ^ 20 := by
  simp only [TinyBrite.colorPacket, TMB_SETCOLORPACKET, BritePacket.setField,
    BritePacket.getField, TA6281_MODE_PWM]
  norm_num
  omega

theorem briteCommandPacket_value (rc gc bc m : Nat) :
    (TinyBrite.commandPacket rc gc bc m).value
      = gc % 128 + (m % 4) * 2 ^ 7 + (rc % 128) * 2 ^ 10 + (bc % 128) * 2 ^ 20 + 2 ^ 30 := by
  simp only [TinyBrite.commandPacket, TMB_SETCOMMANDPACKET, BritePacket.setField,
    BritePacket.getField, TA6281_MODE_CORRECT]
  norm_num
  omega

/-- Claim C28: the wrapper maps green to channel 0, red to channel 1 and blue
to channel 2: for all inputs the raw value of
`TinyBrite::colorPacket(red, green, blue)` is that of
`TinyA6281::pwmPacket(green, red, blue)`, the raw value of
`TinyBrite::commandPacket(redC, greenC, blueC, clk)` is that of
`TinyA6281::commandPacket(greenC, redC, blueC, clk)`, and the colour fields
read back the channels. -/
theorem britePacket_channel_order (red green blue redC greenC blueC clk : Nat) :
    (TinyBrite.colorPacket red green blue).value
      = (TinyA6281.pwmPacket green red blue).value ∧
    (TinyBrite.commandPacket redC greenC blueC clk).value
      = (TinyA6281.commandPacket greenC redC blueC clk).value ∧
    (TinyBrite.colorPacket red green blue).green
      = (TinyA6281.pwmPacket green red blue).pwm_0 ∧
    (TinyBrite.colorPacket red green blue).red
      = (TinyA6281.pwmPacket green red blue).pwm_1 ∧
    (TinyBrite.colorPacket red green blue).blue
      = (TinyA6281.pwmPacket green red blue).pwm_2 := by
  have e1 : (TinyBrite.colorPacket red green blue).value
      = (TinyA6281.pwmPacket green red blue).value := by
    rw [colorPacket_value, pwmPacket_value]
  have e2 : (TinyBrite.commandPacket redC greenC blueC clk).value
      = (TinyA6281.commandPacket greenC redC blueC clk).value := by
    rw [briteCommandPacket_value, commandPacket_value]
  refine ⟨e1, e2, ?_, ?_, ?_⟩
  · simp only [BritePacket.green, BritePacket.getField, A6281Packet.pwm_0,
      A6281Packet.getField, e1]
  · simp only [BritePacket.red, BritePacket.getField, A6281Packet.pwm_1,
      A6281Packet.getField, e1]
  · simp only [BritePacket.blue, BritePacket.getField, A6281Packet.pwm_2,
      A6281Packet.getField, e1]
